import Mathlib

/-!
Verification of the WhyML manifest-processing core against its specification.

The definitions below are a shallow embedding of the Python sources:
  * src/whyml/manifest_processor.py (validator, template processor,
    style processor, inheritance resolver)
  * src/whyml/converters/html_converter.py (HTML converter)
Python strings are Lean Strings, Python dicts are insertion-ordered
association lists, and Python exceptions are an explicit error type
threaded through Except.
-/

/-! ## Basic Python string helpers -/

/-- Whitespace characters recognised by Python's str.strip and the regex
class backslash-s (ASCII subset, which is all the repository uses). -/
def isSpace (c : Char) : Bool :=
  c == ' ' || c == '\t' || c == '\n' || c == '\r' || c == '\x0b' || c == '\x0c'

/-- Python str.lstrip on a character list. -/
def lstripL (l : List Char) : List Char := l.dropWhile isSpace

/-- Python str.rstrip on a character list. -/
def rstripL (l : List Char) : List Char := (l.reverse.dropWhile isSpace).reverse

/-- Python str.strip on a character list. -/
def stripL (l : List Char) : List Char := lstripL (rstripL l)

/-- Python str.strip on strings. -/
def pyStrip (s : String) : String := (stripL s.toList).asString

/-- Worker for whitespace-run collapsing; the flag records whether we are
inside a whitespace run whose single replacement space was already
emitted.  This models re.sub of a whitespace run by one space. -/
def collapseAux : Bool → List Char → List Char
  | _, [] => []
  | true, c :: rest =>
    if isSpace c then collapseAux true rest else c :: collapseAux false rest
  | false, c :: rest =>
    if isSpace c then ' ' :: collapseAux true rest else c :: collapseAux false rest

/-- Python re.sub of any whitespace run by a single space. -/
def collapseL (l : List Char) : List Char := collapseAux false l

/-- A character is acceptable in collapsed output: any whitespace
character must be the plain space. -/
def okChar (c : Char) : Bool := !(isSpace c) || c == ' '

/-- No two adjacent whitespace characters. -/
def noRun : List Char → Bool
  | [] => true
  | [_] => true
  | c :: d :: rest => !(isSpace c && isSpace d) && noRun (d :: rest)

/-- Collapsed form: only plain spaces as whitespace and no runs. -/
def goodL (l : List Char) : Bool := l.all okChar && noRun l

/-- Head of the list, if any, is not whitespace. -/
def headNotSpace : List Char → Bool
  | [] => true
  | c :: _ => !isSpace c

theorem noRun_tail {c : Char} {l : List Char} (h : noRun (c :: l) = true) :
    noRun l = true := by
  cases l with
  | nil => rfl
  | cons d rest => simp [noRun] at h; exact h.2

theorem noRun_cons_of {c : Char} {l : List Char} (hl : noRun l = true)
    (hc : ∀ d rest, l = d :: rest → (isSpace c && isSpace d) = false) :
    noRun (c :: l) = true := by
  cases l with
  | nil => rfl
  | cons d rest =>
    show (!(isSpace c && isSpace d) && noRun (d :: rest)) = true
    rw [hl, hc d rest rfl]
    rfl

theorem collapse_good_aux (l : List Char) :
    (goodL (collapseAux true l) = true ∧ headNotSpace (collapseAux true l) = true) ∧
      goodL (collapseAux false l) = true := by
  induction l with
  | nil => simp [collapseAux, goodL, noRun, headNotSpace]
  | cons c rest ih =>
    by_cases hc : isSpace c = true
    · refine ⟨⟨?_, ?_⟩, ?_⟩
      · simpa [collapseAux, hc] using ih.1.1
      · simpa [collapseAux, hc] using ih.1.2
      · have hg := ih.1.1
        have hh := ih.1.2
        simp only [collapseAux, hc, if_pos]
        simp only [goodL, List.all_cons, Bool.and_eq_true] at hg ⊢
        refine ⟨⟨by simp [okChar], hg.1⟩, ?_⟩
        refine noRun_cons_of hg.2 ?_
        intro d out hout
        rw [hout] at hh
        simp [headNotSpace] at hh
        simp [hh]
    · have hsp : isSpace c = false := by simpa using hc
      have key : goodL (c :: collapseAux false rest) = true := by
        have hg := ih.2
        simp only [goodL, List.all_cons, Bool.and_eq_true] at hg ⊢
        refine ⟨⟨by simp [okChar, hsp], hg.1⟩, ?_⟩
        refine noRun_cons_of hg.2 ?_
        intro d out hout
        simp [hsp]
      refine ⟨⟨?_, ?_⟩, ?_⟩
      · simpa [collapseAux, hsp] using key
      · simp [collapseAux, hsp, headNotSpace]
      · simpa [collapseAux, hsp] using key

theorem collapse_id_of_good (l : List Char) (h : goodL l = true) :
    collapseAux false l = l ∧ (headNotSpace l = true → collapseAux true l = l) := by
  induction l with
  | nil => simp [collapseAux]
  | cons c rest ih =>
    simp only [goodL, List.all_cons, Bool.and_eq_true] at h
    obtain ⟨⟨hok, hall⟩, hrun⟩ := h
    have hrest : goodL rest = true := by
      simp [goodL, hall, noRun_tail hrun]
    by_cases hc : isSpace c = true
    · have hce : c = ' ' := by
        simp [okChar, hc] at hok
        exact hok
      subst hce
      have hh : headNotSpace rest = true := by
        cases rest with
        | nil => rfl
        | cons d out =>
          simp [noRun, hc] at hrun
          simp [headNotSpace, hrun.1]
      constructor
      · have hrec := (ih hrest).2 hh
        show collapseAux false (' ' :: rest) = ' ' :: rest
        rw [show collapseAux false (' ' :: rest) =
            ' ' :: collapseAux true rest from by simp [collapseAux, hc]]
        rw [hrec]
      · intro habs
        simp [headNotSpace, hc] at habs
    · have hsp : isSpace c = false := by simpa using hc
      constructor
      · simp [collapseAux, hsp, (ih hrest).1]
      · intro _
        simp [collapseAux, hsp, (ih hrest).1]

theorem headNotSpace_lstrip (l : List Char) : headNotSpace (l.dropWhile isSpace) = true := by
  induction l with
  | nil => rfl
  | cons c rest ih =>
    by_cases hc : isSpace c = true
    · simpa [List.dropWhile, hc] using ih
    · have hsp : isSpace c = false := by simpa using hc
      simp [List.dropWhile, hsp, headNotSpace]

theorem headNotSpace_collapse {l : List Char} (h : headNotSpace l = true) :
    headNotSpace (collapseL l) = true := by
  cases l with
  | nil => rfl
  | cons c rest =>
    simp [headNotSpace] at h
    simp [collapseL, collapseAux, h, headNotSpace]

theorem noRun_append_single {l : List Char} {a : Char} (hl : noRun l = true)
    (ha : isSpace a = false) : noRun (l ++ [a]) = true := by
  induction l with
  | nil => rfl
  | cons c rest ih =>
    have hr : noRun (rest ++ [a]) = true := ih (noRun_tail hl)
    refine noRun_cons_of hr ?_
    intro d out hout
    cases rest with
    | nil =>
      simp at hout
      rw [← hout.1]
      simp [ha]
    | cons d2 out2 =>
      simp at hout
      have hl2 : (!(isSpace c && isSpace d2) && noRun (d2 :: out2)) = true := hl
      have hcd : (isSpace c && isSpace d2) = false := by
        have hnot := ((Bool.and_eq_true _ _).mp hl2).1
        cases h : (isSpace c && isSpace d2) with
        | false => rfl
        | true => rw [h] at hnot; simp at hnot
      rw [← hout.1]
      exact hcd

theorem good_append_single {l : List Char} {a : Char} (hl : goodL l = true)
    (ha : isSpace a = false) : goodL (l ++ [a]) = true := by
  simp only [goodL, Bool.and_eq_true, List.all_append, List.all_cons] at hl ⊢
  exact ⟨⟨hl.1, by simp [okChar, ha]⟩, noRun_append_single hl.2 ha⟩

theorem rstrip_of_last {l : List Char} {c : Char} (h : l.getLast? = some c)
    (hc : isSpace c = false) : rstripL l = l := by
  have hrev : l.reverse.head? = some c := by
    rw [List.head?_reverse]; exact h
  cases hr : l.reverse with
  | nil => simp [hr] at hrev
  | cons d rest =>
    have hd : d = c := by simp [hr] at hrev; exact hrev
    subst hd
    have hdef : rstripL l = (l.reverse.dropWhile isSpace).reverse := rfl
    rw [hdef, hr]
    simp [List.dropWhile, hc, ← hr]

theorem lstrip_of_head {l : List Char} (h : headNotSpace l = true) :
    lstripL l = l := by
  cases l with
  | nil => rfl
  | cons c rest =>
    simp [headNotSpace] at h
    simp [lstripL, List.dropWhile, h]

/-! ## StyleProcessor (manifest_processor.py, StyleProcessor) -/

/-- Trailing-semicolon fix-up from _process_single_style: append a
semicolon when the string is non-empty and does not already end with
one. -/
def semiFix (t : List Char) : List Char :=
  match t.getLast? with
  | none => t
  | some c => if c = ';' then t else t ++ [';']

/-- Embedding of StyleProcessor._process_single_style on character
lists: strip surrounding whitespace, collapse internal whitespace runs
to single spaces, then fix the trailing semicolon.  (The final
_validate_css_properties call only emits log warnings and returns
nothing, so it does not affect the value.) -/
def normalizeCssL (l : List Char) : List Char :=
  semiFix (collapseL (stripL l))

/-- Embedding of StyleProcessor._process_single_style on strings. -/
def process_single_style (css : String) : String :=
  (normalizeCssL css.toList).asString

/-- Embedding of StyleProcessor.process_styles restricted to the styles
map itself: each named style string is processed by
_process_single_style (an empty map is returned unchanged, as in the
source's early return). -/
def process_styles_map (styles : List (String × String)) : List (String × String) :=
  if styles.isEmpty then styles
  else styles.map (fun p => (p.1, process_single_style p.2))

theorem normalizeCssL_idem (l : List Char) :
    normalizeCssL (normalizeCssL l) = normalizeCssL l := by
  have hsemi : isSpace ';' = false := by decide
  have hgood : goodL (collapseL (stripL l)) = true :=
    (collapse_good_aux (stripL l)).2
  have hhead : headNotSpace (collapseL (stripL l)) = true :=
    headNotSpace_collapse (headNotSpace_lstrip _)
  cases hl : (collapseL (stripL l)).getLast? with
  | none =>
    have hnil : collapseL (stripL l) = [] := List.getLast?_eq_none_iff.mp hl
    unfold normalizeCssL
    rw [hnil]
    rfl
  | some c =>
    have hfix : normalizeCssL l = if c = ';' then collapseL (stripL l)
        else collapseL (stripL l) ++ [';'] := by
      unfold normalizeCssL semiFix
      rw [hl]
    -- properties of the once-normalised list n
    set n := (if c = ';' then collapseL (stripL l) else collapseL (stripL l) ++ [';']) with hn
    have hngood : goodL n = true := by
      rw [hn]
      by_cases hcs : c = ';'
      · simpa [hcs] using hgood
      · simp only [if_neg hcs]
        exact good_append_single hgood hsemi
    have hnhead : headNotSpace n = true := by
      rw [hn]
      by_cases hcs : c = ';'
      · simpa [hcs] using hhead
      · simp only [if_neg hcs]
        cases h : collapseL (stripL l) with
        | nil => rw [h] at hl; simp at hl
        | cons a b =>
          rw [h] at hhead
          simpa [headNotSpace] using hhead
    have hnlast : n.getLast? = some ';' := by
      rw [hn]
      by_cases hcs : c = ';'
      · simp only [if_pos hcs]
        rw [hl, hcs]
      · simp only [if_neg hcs]
        exact List.getLast?_concat _
    -- the second normalisation is the identity on n
    rw [hfix]
    show normalizeCssL n = n
    have hstrip : stripL n = n := by
      unfold stripL
      rw [rstrip_of_last hnlast hsemi]
      exact lstrip_of_head hnhead
    have hcoll : collapseL n = n := (collapse_id_of_good n hngood).1
    unfold normalizeCssL
    rw [hstrip, hcoll]
    unfold semiFix
    rw [hnlast]
    simp

theorem toList_asString (l : List Char) : l.asString.toList = l := rfl

theorem process_single_style_idem (css : String) :
    process_single_style (process_single_style css) = process_single_style css := by
  unfold process_single_style
  rw [toList_asString, normalizeCssL_idem]

/-- Claim C9 (map level): applying the style normalisation twice to a map
from style names to strings gives the same result as applying it once. -/
theorem process_styles_map_idem (S : List (String × String)) :
    process_styles_map (process_styles_map S) = process_styles_map S := by
  have hmap : ∀ l : List (String × String),
      (l.map (fun q => (q.1, process_single_style q.2))).map
        (fun q => (q.1, process_single_style q.2)) =
      l.map (fun q => (q.1, process_single_style q.2)) := by
    intro l
    induction l with
    | nil => rfl
    | cons q qs ih => simp [ih, process_single_style_idem]
  cases S with
  | nil => rfl
  | cons p rest =>
    have h1 : process_styles_map (p :: rest) =
        (p :: rest).map (fun q => (q.1, process_single_style q.2)) := by
      simp [process_styles_map]
    have h2 : process_styles_map
        ((p :: rest).map (fun q => (q.1, process_single_style q.2))) =
        ((p :: rest).map (fun q => (q.1, process_single_style q.2))).map
          (fun q => (q.1, process_single_style q.2)) := by
      simp [process_styles_map]
    rw [h1, h2, hmap]

/-! ## Python value model

Parsed YAML/JSON values manipulated by the processor: strings, ints,
booleans, None, lists, and insertion-ordered string-keyed dicts. -/

/-- A Python value as produced by yaml.safe_load and passed through the
manifest pipeline. -/
inductive PyVal where
  | str : String → PyVal
  | int : Int → PyVal
  | bool : Bool → PyVal
  | none : PyVal
  | list : List PyVal → PyVal
  | dict : List (String × PyVal) → PyVal

mutual

/-- Structural equality on Python values, standing in for Python ==
(the manifests the pipeline handles only ever compare like-typed
values, so cross-type numeric coercions are not modelled). -/
def PyVal.beq : PyVal → PyVal → Bool
  | .str a, .str b => a == b
  | .int a, .int b => a == b
  | .bool a, .bool b => a == b
  | .none, .none => true
  | .list a, .list b => PyVal.beqList a b
  | .dict a, .dict b => PyVal.beqDict a b
  | _, _ => false

/-- Elementwise equality of Python lists. -/
def PyVal.beqList : List PyVal → List PyVal → Bool
  | [], [] => true
  | x :: xs, y :: ys => PyVal.beq x y && PyVal.beqList xs ys
  | _, _ => false

/-- Entrywise equality of Python dicts (insertion order included). -/
def PyVal.beqDict : List (String × PyVal) → List (String × PyVal) → Bool
  | [], [] => true
  | (k, v) :: xs, (k2, v2) :: ys => k == k2 && PyVal.beq v v2 && PyVal.beqDict xs ys
  | _, _ => false

end

instance : BEq PyVal := ⟨PyVal.beq⟩

/-- Python exceptions that the embedded code can raise.  TemplateError
and ConversionError are the whyml.exceptions classes (that module is not
in src/; the constructors carry only their message, modelled from the
spec's error taxonomy).  The others are Python built-ins. -/
inductive PyErr where
  | attributeError : String → PyErr
  | typeError : String → PyErr
  | keyError : String → PyErr
  | stopIteration : PyErr
  | recursionError : PyErr
  | jinjaError : String → PyErr
  | templateError : String → PyErr
  | conversionError : String → PyErr
deriving DecidableEq

/-- Message text used when an exception is interpolated into a string,
as in Python str(e). -/
def pyErrMsg : PyErr → String
  | .attributeError m => m
  | .typeError m => m
  | .keyError m => m
  | .stopIteration => "StopIteration"
  | .recursionError => "maximum recursion depth exceeded"
  | .jinjaError m => m
  | .templateError m => m
  | .conversionError m => m

/-- Python truthiness of a value (bool(v) is False). -/
def pyFalsy : PyVal → Bool
  | .str s => s == ""
  | .int n => n == 0
  | .bool b => !b
  | .none => true
  | .list l => l.isEmpty
  | .dict l => l.isEmpty

/-- Python dict assignment d[k] = v: overwrite in place (keeping the
original insertion position) or append a new key. -/
def setItem : List (String × PyVal) → String → PyVal → List (String × PyVal)
  | [], k, v => [(k, v)]
  | (k0, v0) :: rest, k, v =>
    if k0 = k then (k0, v) :: rest else (k0, v0) :: setItem rest k v

/-- Python d.get(k, default) on a string-keyed dict. -/
def dictGetD (d : List (String × PyVal)) (k : String) (dflt : PyVal) : PyVal :=
  match d.lookup k with
  | some v => v
  | Option.none => dflt

/-- Matching of a literal substring, Python's needle in haystack for
strings (list form). -/
def startsWithL : List Char → List Char → Bool
  | _, [] => true
  | [], _ :: _ => false
  | c :: cs, d :: ds => c == d && startsWithL cs ds

/-- Substring containment on character lists. -/
def containsL : List Char → List Char → Bool
  | [], needle => needle.isEmpty
  | hay@(_ :: rest), needle => startsWithL hay needle || containsL rest needle

/-- Python needle in haystack for strings. -/
def containsSub (hay needle : String) : Bool := containsL hay.toList needle.toList

/-- Induction principle for PyVal that exposes membership hypotheses for
the nested lists and dicts. -/
theorem PyVal.inductionOn {motive : PyVal → Prop}
    (hstr : ∀ s, motive (PyVal.str s))
    (hint : ∀ n, motive (PyVal.int n))
    (hbool : ∀ b, motive (PyVal.bool b))
    (hnone : motive PyVal.none)
    (hlist : ∀ l, (∀ x ∈ l, motive x) → motive (PyVal.list l))
    (hdict : ∀ l, (∀ p ∈ l, motive p.2) → motive (PyVal.dict l)) :
    ∀ v, motive v := by
  have H : ∀ n (v : PyVal), sizeOf v = n → motive v := by
    intro n
    induction n using Nat.strong_induction_on with
    | _ n ih =>
      intro v hv
      cases v with
      | str s => exact hstr s
      | int k => exact hint k
      | bool b => exact hbool b
      | none => exact hnone
      | list l =>
        refine hlist l ?_
        intro x hx
        refine ih (sizeOf x) ?_ x rfl
        subst hv
        have h1 : sizeOf x < sizeOf l := List.sizeOf_lt_of_mem hx
        have h2 : sizeOf (PyVal.list l) = 1 + sizeOf l := by simp
        omega
      | dict l =>
        refine hdict l ?_
        intro p hp
        refine ih (sizeOf p.2) ?_ p.2 rfl
        subst hv
        have h1 : sizeOf p < sizeOf l := List.sizeOf_lt_of_mem hp
        have h2 : sizeOf p.2 < sizeOf p := by
          cases p with
          | mk a b =>
            simp only [Prod.mk.sizeOf_spec]
            omega
        have h3 : sizeOf (PyVal.dict l) = 1 + sizeOf l := by simp
        omega
  intro v
  exact H (sizeOf v) v rfl

/-! ## TemplateProcessor.substitute_variables (manifest_processor.py) -/

mutual

/-- Embedding of the inner substitute_in_value closure of
TemplateProcessor.substitute_variables.  Strings containing both
delimiters are rendered through the Jinja2 environment (passed here as
the render parameter, since Jinja2 is an external collaborator); a
render failure that is a whyml TemplateError is re-raised with the
"Template substitution failed" message, as in the source (the jinja2
TemplateError import is shadowed by the whyml one, so Jinja2-internal
errors propagate unwrapped).  Dicts and lists are rebuilt entrywise;
every other value is returned unchanged. -/
def substitute_in_value (render : String → Except PyErr String) :
    PyVal → Except PyErr PyVal
  | .str s =>
    if containsSub s "\x7b\x7b" && containsSub s "\x7d\x7d" then
      match render s with
      | .ok r => .ok (.str r)
      | .error (.templateError m) =>
        .error (.templateError ("Template substitution failed: " ++ m))
      | .error e => .error e
    else .ok (.str s)
  | .dict l =>
    match substDictEntries render l with
    | .ok l2 => .ok (.dict l2)
    | .error e => .error e
  | .list l =>
    match substListItems render l with
    | .ok l2 => .ok (.list l2)
    | .error e => .error e
  | v => .ok v

/-- Entrywise substitution over a Python list. -/
def substListItems (render : String → Except PyErr String) :
    List PyVal → Except PyErr (List PyVal)
  | [] => .ok []
  | x :: xs =>
    match substitute_in_value render x with
    | .error e => .error e
    | .ok y =>
      match substListItems render xs with
      | .error e => .error e
      | .ok ys => .ok (y :: ys)

/-- Valuewise substitution over a Python dict. -/
def substDictEntries (render : String → Except PyErr String) :
    List (String × PyVal) → Except PyErr (List (String × PyVal))
  | [] => .ok []
  | (k, v) :: xs =>
    match substitute_in_value render v with
    | .error e => .error e
    | .ok w =>
      match substDictEntries render xs with
      | .error e => .error e
      | .ok ys => .ok ((k, w) :: ys)

end

/-- Claim C10: during variable substitution, a string lacking either
delimiter is returned unchanged, non-string scalars (ints, booleans,
None) are returned unchanged, and only strings containing both
delimiters are rendered against the context. -/
theorem substitute_variables_scalar_policy (render : String → Except PyErr String) :
    (∀ s : String, (containsSub s "\x7b\x7b" && containsSub s "\x7d\x7d") = false →
        substitute_in_value render (PyVal.str s) = .ok (PyVal.str s)) ∧
    (∀ n : Int, substitute_in_value render (PyVal.int n) = .ok (PyVal.int n)) ∧
    (∀ b : Bool, substitute_in_value render (PyVal.bool b) = .ok (PyVal.bool b)) ∧
    (substitute_in_value render PyVal.none = .ok PyVal.none) ∧
    (∀ s r, (containsSub s "\x7b\x7b" && containsSub s "\x7d\x7d") = true →
        render s = .ok r →
        substitute_in_value render (PyVal.str s) = .ok (PyVal.str r)) := by
  refine ⟨?_, ?_, ?_, ?_, ?_⟩
  · intro s h
    simp [substitute_in_value, h]
  · intro n
    simp [substitute_in_value]
  · intro b
    simp [substitute_in_value]
  · simp [substitute_in_value]
  · intro s r h hr
    simp [substitute_in_value, h, hr]

/-- Witness for C10 at concrete inputs: a delimiter-free string and an
int survive substitution unchanged, and a delimited string is replaced
by the render result. -/
theorem substitute_variables_scalar_policy_w :
    substitute_in_value (fun _ => .ok "R") (PyVal.str "hello") = .ok (PyVal.str "hello") ∧
    substitute_in_value (fun _ => .ok "R") (PyVal.int 7) = .ok (PyVal.int 7) ∧
    substitute_in_value (fun _ => .ok "R") (PyVal.str "a\x7b\x7bx\x7d\x7d") =
      .ok (PyVal.str "R") := by
  refine ⟨?_, ?_, ?_⟩
  · exact (substitute_variables_scalar_policy (fun _ => .ok "R")).1 "hello" (by decide)
  · exact (substitute_variables_scalar_policy (fun _ => .ok "R")).2.1 7
  · exact (substitute_variables_scalar_policy (fun _ => .ok "R")).2.2.2.2
      "a\x7b\x7bx\x7d\x7d" "R" (by decide) rfl

/-! ## TemplateProcessor._process_template_slots (manifest_processor.py) -/

/-- Python membership test, value in container, for the container shapes
the processor can meet.  Unhashable values against a dict raise
TypeError exactly as CPython does. -/
def pyContains (container v : PyVal) : Except PyErr Bool :=
  match container, v with
  | .dict d, .str s => .ok (d.any (fun p => p.1 == s))
  | .dict _, .list _ => .error (.typeError "unhashable type: list")
  | .dict _, .dict _ => .error (.typeError "unhashable type: dict")
  | .dict _, _ => .ok false
  | .list xs, w => .ok (xs.contains w)
  | .str hay, .str nee => .ok (containsSub hay nee)
  | .str _, _ => .error (.typeError "in <string> requires string as left operand")
  | _, _ => .error (.typeError "argument is not a container")

/-- Python subscript container[v] for the shapes the processor can
meet. -/
def getItem (container v : PyVal) : Except PyErr PyVal :=
  match container, v with
  | .dict d, .str s =>
    match d.lookup s with
    | some w => .ok w
    | Option.none => .error (.keyError s)
  | .dict _, .list _ => .error (.typeError "unhashable type: list")
  | .dict _, .dict _ => .error (.typeError "unhashable type: dict")
  | .dict _, _ => .error (.keyError "missing key")
  | .list xs, .int n =>
    match xs[n.toNat]? with
    | some w => if 0 ≤ n then .ok w else .error (.keyError "negative index not modelled")
    | Option.none => .error (.keyError "list index out of range")
  | .list _, _ => .error (.typeError "list indices must be integers")
  | _, _ => .error (.typeError "object is not subscriptable")

mutual

/-- Embedding of the replace_slots closure inside
TemplateProcessor._process_template_slots: a dict node whose slot key
names a key of the child structure is replaced by the child's value;
otherwise the node is rebuilt entrywise (recursing into dict and list
values, with the children key handled itemwise); lists map the
replacement over their items; all other values are returned as-is. -/
def replace_slots (cs : PyVal) : PyVal → Except PyErr PyVal
  | .dict l =>
    match l.lookup "slot" with
    | some sv =>
      (match pyContains cs sv with
       | .error e => .error e
       | .ok true => getItem cs sv
       | .ok false =>
         match replaceDictEntries cs l with
         | .ok l2 => .ok (.dict l2)
         | .error e => .error e)
    | Option.none =>
      match replaceDictEntries cs l with
      | .ok l2 => .ok (.dict l2)
      | .error e => .error e
  | .list xs =>
    match replaceListItems cs xs with
    | .ok ys => .ok (.list ys)
    | .error e => .error e
  | v => .ok v

/-- Itemwise slot replacement over a list of nodes. -/
def replaceListItems (cs : PyVal) : List PyVal → Except PyErr (List PyVal)
  | [] => .ok []
  | x :: xs =>
    match replace_slots cs x with
    | .error e => .error e
    | .ok y =>
      match replaceListItems cs xs with
      | .error e => .error e
      | .ok ys => .ok (y :: ys)

/-- Entrywise rebuild of a dict node: the children key with a list value
is mapped itemwise, other dict or list values recurse, and scalar
values are kept. -/
def replaceDictEntries (cs : PyVal) : List (String × PyVal) →
    Except PyErr (List (String × PyVal))
  | [] => .ok []
  | (k, v) :: rest =>
    match
      (if k = "children" then
        match v with
        | .list xs =>
          (match replaceListItems cs xs with
           | .ok ys => .ok (.list ys)
           | .error e => .error e)
        | .dict d => replace_slots cs (.dict d)
        | w => .ok w
      else
        match v with
        | .dict d => replace_slots cs (.dict d)
        | .list xs => replace_slots cs (.list xs)
        | w => (.ok w : Except PyErr PyVal)) with
    | .error e => .error e
    | .ok w =>
      match replaceDictEntries cs rest with
      | .error e => .error e
      | .ok ys => .ok ((k, w) :: ys)

end


/-- Embedding of TemplateProcessor._process_template_slots: when the
parent carries no (truthy) template_slots mapping the parent is
returned unchanged; otherwise the parent structure entry is rewritten
through replace_slots against the child structure. -/
def process_template_slots (parent child : List (String × PyVal)) :
    Except PyErr (List (String × PyVal)) :=
  let parent_slots := dictGetD parent "template_slots" (.dict [])
  let child_structure := dictGetD child "structure" (.dict [])
  if pyFalsy parent_slots then .ok parent
  else
    match parent.lookup "structure" with
    | Option.none => .error (.keyError "structure")
    | some st =>
      match replace_slots child_structure st with
      | .ok st2 => .ok (setItem parent "structure" st2)
      | .error e => .error e

mutual

/-- No node of the tree carries a slot reference that matches a key of
the child structure, and every slot value is hashable (the membership
test returns false rather than raising). -/
def no_slot_match (cs : PyVal) : PyVal → Bool
  | .dict l =>
    (match l.lookup "slot" with
     | Option.none => true
     | some sv =>
       match pyContains cs sv with
       | .ok false => true
       | _ => false) && noSlotMatchDict cs l
  | .list xs => noSlotMatchList cs xs
  | _ => true

/-- Pointwise no_slot_match over list items. -/
def noSlotMatchList (cs : PyVal) : List PyVal → Bool
  | [] => true
  | x :: xs => no_slot_match cs x && noSlotMatchList cs xs

/-- Pointwise no_slot_match over dict values. -/
def noSlotMatchDict (cs : PyVal) : List (String × PyVal) → Bool
  | [] => true
  | (_, v) :: rest => no_slot_match cs v && noSlotMatchDict cs rest

end

theorem setItem_self (l : List (String × PyVal)) (k : String) (v : PyVal)
    (h : l.lookup k = some v) : setItem l k v = l := by
  induction l with
  | nil => simp [List.lookup] at h
  | cons p rest ih =>
    cases p with
    | mk k0 v0 =>
      by_cases hk : k0 = k
      · subst hk
        have hv : v0 = v := by
          simp [List.lookup] at h
          exact h
        simp [setItem, hv]
      · have hkk : (k == k0) = false := beq_eq_false_iff_ne.mpr (Ne.symm hk)
        have h2 : rest.lookup k = some v := by
          simpa [List.lookup, hkk] using h
        simp [setItem, hk, ih h2]

theorem replaceListItems_no_match (cs : PyVal) (l : List PyVal)
    (hpt : ∀ x ∈ l, no_slot_match cs x = true → replace_slots cs x = .ok x)
    (h : noSlotMatchList cs l = true) : replaceListItems cs l = .ok l := by
  induction l with
  | nil => rfl
  | cons x xs ih =>
    have hx : no_slot_match cs x = true ∧ noSlotMatchList cs xs = true := by
      simpa [noSlotMatchList, Bool.and_eq_true] using h
    have h1 : replace_slots cs x = .ok x := hpt x (by simp) hx.1
    have h2 : replaceListItems cs xs = .ok xs :=
      ih (fun y hy => hpt y (by simp [hy])) hx.2
    simp [replaceListItems, h1, h2]

theorem replaceDictEntries_no_match (cs : PyVal) (l : List (String × PyVal))
    (hpt : ∀ p ∈ l, no_slot_match cs p.2 = true → replace_slots cs p.2 = .ok p.2)
    (h : noSlotMatchDict cs l = true) : replaceDictEntries cs l = .ok l := by
  induction l with
  | nil => rfl
  | cons p rest ih =>
    cases p with
    | mk k v =>
      have hx : no_slot_match cs v = true ∧ noSlotMatchDict cs rest = true := by
        simpa [noSlotMatchDict, Bool.and_eq_true] using h
      have hv : replace_slots cs v = .ok v := hpt (k, v) (by simp) hx.1
      have hrest : replaceDictEntries cs rest = .ok rest :=
        ih (fun q hq => hpt q (by simp [hq])) hx.2
      by_cases hc : k = "children"
      · cases v with
        | list xs =>
          have hli : replaceListItems cs xs = .ok xs := by
            cases hq : replaceListItems cs xs with
            | error e =>
              simp only [replace_slots, hq] at hv
              simp at hv
            | ok ys =>
              simp only [replace_slots, hq] at hv
              simp at hv
              rw [hv]
          simp only [replaceDictEntries, if_pos hc]
          simp [hli, hrest]
        | dict d =>
          simp only [replaceDictEntries, if_pos hc]
          simp [hv, hrest]
        | str s =>
          simp only [replaceDictEntries, if_pos hc]
          simp [hrest]
        | int n =>
          simp only [replaceDictEntries, if_pos hc]
          simp [hrest]
        | bool b =>
          simp only [replaceDictEntries, if_pos hc]
          simp [hrest]
        | none =>
          simp only [replaceDictEntries, if_pos hc]
          simp [hrest]
      · cases v with
        | list xs =>
          simp only [replaceDictEntries, if_neg hc]
          simp [hv, hrest]
        | dict d =>
          simp only [replaceDictEntries, if_neg hc]
          simp [hv, hrest]
        | str s =>
          simp only [replaceDictEntries, if_neg hc]
          simp [hrest]
        | int n =>
          simp only [replaceDictEntries, if_neg hc]
          simp [hrest]
        | bool b =>
          simp only [replaceDictEntries, if_neg hc]
          simp [hrest]
        | none =>
          simp only [replaceDictEntries, if_neg hc]
          simp [hrest]

theorem replace_slots_no_match (cs : PyVal) :
    ∀ v, no_slot_match cs v = true → replace_slots cs v = .ok v := by
  intro v
  induction v using PyVal.inductionOn with
  | hstr s => intro _; rfl
  | hint n => intro _; rfl
  | hbool b => intro _; rfl
  | hnone => intro _; rfl
  | hlist l ih =>
    intro h
    have hxs : noSlotMatchList cs l = true := by
      simpa [no_slot_match] using h
    have hli := replaceListItems_no_match cs l (fun x hx => ih x hx) hxs
    simp [replace_slots, hli]
  | hdict l ih =>
    intro h
    have h2 : (match l.lookup "slot" with
        | Option.none => true
        | some sv =>
          match pyContains cs sv with
          | .ok false => true
          | _ => false) = true ∧ noSlotMatchDict cs l = true := by
      simpa [no_slot_match, Bool.and_eq_true] using h
    have hent := replaceDictEntries_no_match cs l (fun p hp => ih p hp) h2.2
    cases hsl : l.lookup "slot" with
    | none => simp [replace_slots, hsl, hent]
    | some sv =>
      have hm := h2.1
      rw [hsl] at hm
      have hm2 : (match pyContains cs sv with
          | .ok false => true
          | _ => false) = true := hm
      have hpc : pyContains cs sv = .ok false := by
        cases hp : pyContains cs sv with
        | error e => rw [hp] at hm2; simp at hm2
        | ok b =>
          cases b with
          | false => rfl
          | true => rw [hp] at hm2; simp at hm2
      simp [replace_slots, hsl, hpc, hent]

/-- Claim C4: when no node of the ancestor structure carries a slot key
whose value names a key of the child structure mapping, slot
substitution returns the parent manifest unchanged (every
ancestor-derived structure node keeps its pre-resolution value) and
raises no error: the unmatched slot references are simply kept as-is. -/
theorem process_template_slots_no_match_noop (parent child : List (String × PyVal))
    (st : PyVal)
    (hst : parent.lookup "structure" = some st)
    (hnm : no_slot_match (dictGetD child "structure" (.dict [])) st = true) :
    process_template_slots parent child = .ok parent := by
  unfold process_template_slots
  by_cases hf : pyFalsy (dictGetD parent "template_slots" (.dict [])) = true
  · simp [hf]
  · have hf2 : pyFalsy (dictGetD parent "template_slots" (.dict [])) = false := by
      simpa using hf
    have hrep := replace_slots_no_match (dictGetD child "structure" (.dict [])) st hnm
    simp [hf2, hst, hrep, setItem_self parent "structure" st hst]

/-- Witness for C4: a parent whose structure holds one unmatched slot
reference survives slot substitution byte-for-byte. -/
theorem process_template_slots_no_match_noop_w :
    process_template_slots
      [("template_slots", PyVal.dict [("header", PyVal.str "x")]),
       ("structure", PyVal.dict [("div", PyVal.dict [("slot", PyVal.str "header")])])]
      [("structure", PyVal.dict [("content", PyVal.str "c")])] =
    .ok [("template_slots", PyVal.dict [("header", PyVal.str "x")]),
       ("structure", PyVal.dict [("div", PyVal.dict [("slot", PyVal.str "header")])])] :=
  process_template_slots_no_match_noop _ _
    (PyVal.dict [("div", PyVal.dict [("slot", PyVal.str "header")])]) rfl rfl

/-! ## TemplateProcessor.process_template_inheritance and
ManifestProcessor._process_inheritance (manifest_processor.py) -/

/-- Python dict.update(e) on string-keyed dicts: entries of e overwrite
or append in order. -/
def dictUpdate (d e : List (String × PyVal)) : List (String × PyVal) :=
  e.foldl (fun acc p => setItem acc p.1 p.2) d

/-- One result.setdefault(sec, dict()).update(child[sec]) step of
process_template_inheritance, for the shallow-merged sections
(metadata, styles, imports, interactions). -/
def mergeSection (result child : List (String × PyVal)) (sec : String) :
    Except PyErr (List (String × PyVal)) :=
  match child.lookup sec with
  | Option.none => .ok result
  | some (.dict ce) =>
    match result.lookup sec with
    | some (.dict re) => .ok (setItem result sec (.dict (dictUpdate re ce)))
    | some _ => .error (.attributeError "update")
    | Option.none => .ok (result ++ [(sec, .dict (dictUpdate [] ce))])
  | some _ => .error (.typeError "update argument must be a mapping")

mutual

/-- Embedding of the merge_element closure in
TemplateProcessor._merge_structures: two dicts merge recursively with
child precedence, anything else resolves to the child element. -/
def mergeElem : PyVal → PyVal → PyVal
  | .dict pl, .dict cl => .dict (mergeEntries pl cl)
  | _, c => c

/-- Fold of child dict entries into the accumulated parent dict. -/
def mergeEntries (acc : List (String × PyVal)) :
    List (String × PyVal) → List (String × PyVal)
  | [] => acc
  | (k, v) :: rest =>
    mergeEntries
      (match acc.lookup k, v with
       | some (.dict mv), .dict cv => setItem acc k (mergeElem (.dict mv) (.dict cv))
       | _, _ => setItem acc k v)
      rest

end

/-- Embedding of TemplateProcessor._merge_structures: a falsy side
yields the other, a child carrying a truthy internal override marker
replaces the parent structure wholesale, otherwise the two merge
recursively. -/
def merge_structures (p c : PyVal) : Except PyErr PyVal :=
  if pyFalsy p then .ok c
  else if pyFalsy c then .ok p
  else
    match c with
    | .dict cl =>
      if pyFalsy (dictGetD cl "_override" (.bool false)) then .ok (mergeElem p (.dict cl))
      else .ok (.dict cl)
    | _ => .error (.attributeError "get")

/-- Embedding of TemplateProcessor.process_template_inheritance: start
from a copy of the parent, shallow-merge metadata and styles with child
precedence, run slot substitution, shallow-merge imports and
interactions, then merge the structures. -/
def process_template_inheritance (child parent : List (String × PyVal)) :
    Except PyErr (List (String × PyVal)) :=
  match mergeSection parent child "metadata" with
  | .error e => .error e
  | .ok r1 =>
    match mergeSection r1 child "styles" with
    | .error e => .error e
    | .ok r2 =>
      match process_template_slots r2 child with
      | .error e => .error e
      | .ok r3 =>
        match mergeSection r3 child "imports" with
        | .error e => .error e
        | .ok r4 =>
          match mergeSection r4 child "interactions" with
          | .error e => .error e
          | .ok r5 =>
            match merge_structures (dictGetD r5 "structure" (.dict []))
                (dictGetD child "structure" (.dict [])) with
            | .error e => .error e
            | .ok merged => .ok (setItem r5 "structure" merged)

/-- Message of the TemplateError raised by the except clause of
_process_inheritance: it names the offending extends reference and the
stringified original error. -/
def inheritanceErrMsg (ref : String) (e : PyErr) : String :=
  "Failed to process template inheritance (" ++ ref ++ "): " ++ pyErrMsg e

/-- Embedding of ManifestProcessor._process_inheritance.  The injected
loader stands for self.loader.load_manifest (a whyml module not under
src/, treated as an external collaborator per the spec).  The fuel
argument is the Python interpreter call-stack budget: the source tracks
no visited set, so each level recursively resolves the parent; when the
budget is exhausted Python raises RecursionError.  The second component
counts loader invocations. -/
def process_inheritance (loader : String → Except PyErr (List (String × PyVal))) :
    Nat → List (String × PyVal) → Except PyErr (List (String × PyVal)) × Nat
  | 0, _ => (.error .recursionError, 0)
  | Nat.succ fuel, m =>
    match m.lookup "metadata" with
    | some (.str _) => (.error (.attributeError "get"), 0)
    | some (.int _) => (.error (.attributeError "get"), 0)
    | some (.bool _) => (.error (.attributeError "get"), 0)
    | some (.list _) => (.error (.attributeError "get"), 0)
    | some PyVal.none => (.error (.attributeError "get"), 0)
    | some (.dict md) =>
      let ext := dictGetD md "extends" PyVal.none
      if pyFalsy ext then (.ok m, 0)
      else
        match ext with
        | .str s =>
          (match loader s with
           | .error e => (.error (.templateError (inheritanceErrMsg s e)), 1)
           | .ok parent =>
             let p := process_inheritance loader fuel parent
             ((match p.1 with
               | .error e => .error (.templateError (inheritanceErrMsg s e))
               | .ok pp =>
                 match process_template_inheritance m pp with
                 | .error e => .error (.templateError (inheritanceErrMsg s e))
                 | .ok merged => .ok merged), p.2 + 1))
        | _ => (.error (.templateError (inheritanceErrMsg "<non-string reference>"
            (.typeError "unsupported manifest source"))), 0)
    | Option.none =>
      let ext := PyVal.none
      if pyFalsy ext then (.ok m, 0) else (.ok m, 0)

/-- A manifest whose extends chain points at B. -/
def manifestA : List (String × PyVal) :=
  [("metadata", PyVal.dict [("title", PyVal.str "A"), ("extends", PyVal.str "B")]),
   ("structure", PyVal.dict [("div", PyVal.dict [("text", PyVal.str "a")])])]

/-- A manifest whose extends chain points back at A, closing the cycle. -/
def manifestB : List (String × PyVal) :=
  [("metadata", PyVal.dict [("title", PyVal.str "B"), ("extends", PyVal.str "A")]),
   ("structure", PyVal.dict [("div", PyVal.dict [("text", PyVal.str "b")])])]

/-- Loader serving the two mutually extending manifests. -/
def cyclicLoader : String → Except PyErr (List (String × PyVal)) :=
  fun r =>
    if r = "A" then .ok manifestA
    else if r = "B" then .ok manifestB
    else .error (.templateError "manifest not found")

theorem cyclic_counts (n : Nat) :
    (process_inheritance cyclicLoader n manifestA).2 = n ∧
      (process_inheritance cyclicLoader n manifestB).2 = n := by
  induction n with
  | zero => exact ⟨rfl, rfl⟩
  | succ k ih =>
    constructor
    · have hstep : (process_inheritance cyclicLoader (k + 1) manifestA).2 =
          (process_inheritance cyclicLoader k manifestB).2 + 1 := rfl
      rw [hstep, ih.2]
    · have hstep : (process_inheritance cyclicLoader (k + 1) manifestB).2 =
          (process_inheritance cyclicLoader k manifestA).2 + 1 := rfl
      rw [hstep, ih.1]

theorem cyclic_errors (n : Nat) :
    (∃ d, (process_inheritance cyclicLoader (n + 1) manifestA).1 =
        .error (.templateError d)) ∧
      (∃ d, (process_inheritance cyclicLoader (n + 1) manifestB).1 =
        .error (.templateError d)) := by
  induction n with
  | zero =>
    exact ⟨⟨inheritanceErrMsg "B" PyErr.recursionError, rfl⟩,
      ⟨inheritanceErrMsg "A" PyErr.recursionError, rfl⟩⟩
  | succ k ih =>
    constructor
    · obtain ⟨d, hd⟩ := ih.2
      refine ⟨inheritanceErrMsg "B" (.templateError d), ?_⟩
      have hstep : (process_inheritance cyclicLoader (k + 1 + 1) manifestA).1 =
          (match (process_inheritance cyclicLoader (k + 1) manifestB).1 with
           | .error e => .error (.templateError (inheritanceErrMsg "B" e))
           | .ok pp =>
             match process_template_inheritance manifestA pp with
             | .error e => .error (.templateError (inheritanceErrMsg "B" e))
             | .ok merged => .ok merged) := rfl
      rw [hstep, hd]
    · obtain ⟨d, hd⟩ := ih.1
      refine ⟨inheritanceErrMsg "A" (.templateError d), ?_⟩
      have hstep : (process_inheritance cyclicLoader (k + 1 + 1) manifestB).1 =
          (match (process_inheritance cyclicLoader (k + 1) manifestA).1 with
           | .error e => .error (.templateError (inheritanceErrMsg "A" e))
           | .ok pp =>
             match process_template_inheritance manifestB pp with
             | .error e => .error (.templateError (inheritanceErrMsg "A" e))
             | .ok merged => .ok merged) := rfl
      rw [hstep, hd]

/-- Claim C1 (evaluating the code at the failing input): on the cyclic
chain A extends B extends A, _process_inheritance tracks no set of
in-progress references.  For every interpreter stack budget n it
performs exactly n loader invocations — a bound set by the recursion
limit, not proportional to the chain length 2 — before the nested
RecursionError is wrapped into the TemplateError that finally
surfaces. -/
theorem process_inheritance_cycle_no_detection :
    (∀ n : Nat, (process_inheritance cyclicLoader n manifestA).2 = n) ∧
      (∀ n : Nat, ∃ d, (process_inheritance cyclicLoader (n + 1) manifestA).1 =
        .error (.templateError d)) :=
  ⟨fun n => (cyclic_counts n).1, fun n => (cyclic_errors n).1⟩

/-! ## ManifestValidator (manifest_processor.py)

The validator is embedded over manifests already shaped like the data
model of the spec (metadata values strings, style values strings,
structure a mapping, template_slots string-valued): within this domain
it reproduces exactly the error-producing statements of
ManifestValidator.validate; the remaining jsonschema clauses and the
style/metadata warning branches cannot fire. -/

/-- A manifest in the shape of the data model: a string-valued metadata
dict, a string-valued styles dict, an optional structure mapping (None
when the structure key is absent), and a string-valued template_slots
dict. -/
structure WManifest where
  metadata : List (String × String)
  styles : List (String × String)
  struct : Option (List (String × PyVal))
  template_slots : List (String × String)

/-- Slot-name pattern of _validate_template_inheritance (and the
element-name check of jsonschema patternProperties): ASCII letter or
underscore, then letters, digits, underscores and hyphens. -/
def slot_name_ok (s : String) : Bool :=
  match s.toList with
  | [] => false
  | c :: rest =>
    (c.isAlpha || c == '_') && rest.all (fun d => d.isAlphanum || d == '_' || d == '-')

/-- The jsonschema pass of validate on this domain: all type clauses
hold by construction, so the only schema violations left are a missing
metadata.title (required) and a missing structure key (required).
jsonschema.validate raises on the first violation, producing one
error. -/
def schema_ok (m : WManifest) : Bool :=
  (m.metadata.lookup "title").isSome && m.struct.isSome

/-- Errors appended by the schema validation step. -/
def schema_errors (m : WManifest) : List String :=
  if schema_ok m then [] else ["Schema validation failed"]

/-- Errors appended by _validate_metadata: a falsy title, and an
extends entry that is blank after stripping (the isinstance(str) arm
holds by the domain). -/
def metadata_errors (m : WManifest) : List String :=
  (match m.metadata.lookup "title" with
   | some t => if t = "" then ["Metadata must include a title"] else []
   | Option.none => ["Metadata must include a title"]) ++
  (match m.metadata.lookup "extends" with
   | some ex => if pyStrip ex = "" then ["Template extends must be a non-empty string"] else []
   | Option.none => [])

/-- Errors appended by _validate_styles: none, since the domain makes
every style value a string (the remaining checks only emit warnings). -/
def styles_errors (_ : WManifest) : List String := []

/-- Errors appended by _validate_structure: only the falsy-structure
check produces an error (the element walk emits warnings). -/
def structure_errors (m : WManifest) : List String :=
  match m.struct with
  | some l => if l.isEmpty then ["Structure is required"] else []
  | Option.none => ["Structure is required"]

/-- Errors appended by _validate_template_inheritance: one per slot
name failing the identifier pattern (the extends/template_slots
coexistence check is a warning). -/
def slot_errors (m : WManifest) : List String :=
  (m.template_slots.filter (fun p => !slot_name_ok p.1)).map
    (fun p => "Invalid template slot name: " ++ p.1)

/-- Embedding of ManifestValidator.validate restricted to its error
list, in source order: schema, metadata, styles, structure, template
inheritance. -/
def validate_errors (m : WManifest) : List String :=
  schema_errors m ++ metadata_errors m ++ styles_errors m ++
    structure_errors m ++ slot_errors m

/-- Title lookup is present and non-empty (Python truthiness of
metadata.get of the title). -/
def title_truthy (m : WManifest) : Bool :=
  match m.metadata.lookup "title" with
  | some t => t != ""
  | Option.none => false

/-- Structure key is present and its mapping non-empty. -/
def structure_truthy (m : WManifest) : Bool :=
  match m.struct with
  | some l => !l.isEmpty
  | Option.none => false

/-- Any extends entry is non-blank after stripping. -/
def extends_ok (m : WManifest) : Bool :=
  match m.metadata.lookup "extends" with
  | some ex => pyStrip ex != ""
  | Option.none => true

/-- Every template slot name matches the identifier pattern. -/
def slots_ok (m : WManifest) : Bool :=
  m.template_slots.all (fun p => slot_name_ok p.1)

/-- Counterexample to claim C2 as stated: a manifest with a non-empty
title and a non-empty structure whose metadata carries a blank extends
entry still yields a validation error, so errors-empty is not
equivalent to title-and-structure alone. -/
theorem validate_iff_title_structure_false :
    validate_errors
      ⟨[("title", "T"), ("extends", "")], [],
        some [("div", PyVal.dict [])], []⟩ ≠ [] ∧
    title_truthy
      ⟨[("title", "T"), ("extends", "")], [],
        some [("div", PyVal.dict [])], []⟩ = true ∧
    structure_truthy
      ⟨[("title", "T"), ("extends", "")], [],
        some [("div", PyVal.dict [])], []⟩ = true := by
  refine ⟨?_, rfl, rfl⟩
  decide

/-- Claim C2 as amended: within the data-model domain, validate returns
an empty error list iff the title is present and non-empty, the
structure is present and non-empty, any extends entry is non-blank,
and every template slot name matches the identifier pattern. -/
theorem validate_errors_empty_iff (m : WManifest) :
    validate_errors m = [] ↔
      (title_truthy m = true ∧ structure_truthy m = true ∧
        extends_ok m = true ∧ slots_ok m = true) := by
  unfold validate_errors schema_errors metadata_errors styles_errors
    structure_errors slot_errors schema_ok title_truthy structure_truthy
    extends_ok slots_ok
  cases hT : m.metadata.lookup "title" with
  | none => simp
  | some t =>
    cases hS : m.struct with
    | none => simp
    | some l =>
      cases hE : m.metadata.lookup "extends" with
      | none =>
        by_cases ht : t = ""
        · simp [ht]
        · by_cases hl : l.isEmpty
          · simp [ht, hl]
          · simp [ht, hl, List.filter_eq_nil_iff, List.all_eq_true]
      | some ex =>
        by_cases ht : t = ""
        · simp [ht]
        · by_cases hx : pyStrip ex = ""
          · simp [ht, hx]
          · by_cases hl : l.isEmpty
            · simp [ht, hx, hl]
            · simp [ht, hx, hl, List.filter_eq_nil_iff, List.all_eq_true]

/-! ## HTMLConverter helpers (converters/html_converter.py) -/

/-- Expansion of one character under Python html.escape (quote mode on,
as the source uses the default). -/
def escapeChar (c : Char) : String :=
  if c = '&' then "&amp;"
  else if c = '<' then "&lt;"
  else if c = '>' then "&gt;"
  else if c = '"' then "&quot;"
  else if c = '\'' then "&#x27;"
  else String.singleton c

/-- Python html.escape on a string. -/
def escapeHtml (s : String) : String :=
  s.toList.foldl (fun acc c => acc ++ escapeChar c) ""

/-- Python html.escape applied to an arbitrary value: non-strings raise
(escape calls .replace on its argument). -/
def pyEscape (v : PyVal) : Except PyErr String :=
  match v with
  | .str s => .ok (escapeHtml s)
  | _ => .error (.attributeError "replace")

/-- Python repr of a string: quote preference and basic escapes. -/
def pyReprStr (s : String) : String :=
  let hasSingle := s.toList.contains '\''
  let hasDouble := s.toList.contains '"'
  let q : Char := if hasSingle && !hasDouble then '"' else '\''
  let body := s.toList.foldl (fun acc c =>
    acc ++ (if c = '\\' then "\\\\"
      else if c = q then "\\" ++ String.singleton q
      else if c = '\n' then "\\n"
      else if c = '\t' then "\\t"
      else if c = '\r' then "\\r"
      else String.singleton c)) ""
  String.singleton q ++ body ++ String.singleton q

mutual

/-- Python repr of a value. -/
def pyRepr : PyVal → String
  | .str s => pyReprStr s
  | .int n => toString n
  | .bool b => if b then "True" else "False"
  | .none => "None"
  | .list l => "[" ++ String.intercalate ", " (pyReprItems l) ++ "]"
  | .dict l => "\x7b" ++ String.intercalate ", " (pyReprEntries l) ++ "\x7d"

/-- Reprs of list items. -/
def pyReprItems : List PyVal → List String
  | [] => []
  | x :: xs => pyRepr x :: pyReprItems xs

/-- Reprs of dict entries. -/
def pyReprEntries : List (String × PyVal) → List String
  | [] => []
  | (k, v) :: xs => (pyReprStr k ++ ": " ++ pyRepr v) :: pyReprEntries xs

end

/-- Python str() of a value (the f-string conversion): strings pass
through, everything else reads as its repr. -/
def pyStr : PyVal → String
  | .str s => s
  | v => pyRepr v

/-- Hyphen insertion of _format_css_selector: re.sub of a lowercase or
digit followed by an uppercase letter with the pair split by a hyphen,
scanning left to right without overlap. -/
def kebabAux : List Char → List Char
  | [] => []
  | [c] => [c]
  | c :: d :: rest =>
    if (c.isLower || c.isDigit) && d.isUpper then c :: '-' :: d :: kebabAux rest
    else c :: kebabAux (d :: rest)

/-- ASCII lowercasing of a string (Python str.lower on the identifiers
this repository handles). -/
def toLowerStr (s : String) : String := (s.toList.map Char.toLower).asString

/-- Python str.split on a semicolon: maximal runs between semicolons,
including empty pieces. -/
def splitSemiAux : List Char → List Char → List (List Char)
  | [], cur => [cur.reverse]
  | c :: rest, cur =>
    if c = ';' then cur.reverse :: splitSemiAux rest []
    else splitSemiAux rest (c :: cur)

/-- Python s.split of a string on semicolons. -/
def splitOnSemicolon (s : String) : List String :=
  (splitSemiAux s.toList []).map List.asString

/-- Python s.endswith of a single-character suffix. -/
def endsWithSemi (s : String) : Bool := s.toList.getLast? == some ';'

/-- Embedding of HTMLConverter._format_css_selector: camelCase to
kebab-case, lowercased, prefixed with a dot unless the name already
starts with a dot or hash. -/
def format_css_selector (s : String) : String :=
  let kebab := ((kebabAux s.toList).map Char.toLower).asString
  if startsWithL kebab.toList ['.'] || startsWithL kebab.toList ['#'] then kebab
  else "." ++ kebab

/-- Python str.lstrip with a dot argument, as applied to the formatted
selector when deriving a class name. -/
def lstrip_dots (s : String) : String :=
  (s.toList.dropWhile (fun c => c = '.')).asString

/-- Embedding of HTMLConverter._format_css_rules: a falsy rules value
yields no rules; a string is split on semicolons, stripped, blanks
dropped and a trailing semicolon restored; any other truthy value
raises, as the source calls .split on it (the list-shaped style defect
of the spec's design notes). -/
def format_css_rules (rules : PyVal) : Except PyErr (List String) :=
  if pyFalsy rules then .ok []
  else
    match rules with
    | .str s =>
      .ok (((((splitOnSemicolon s)).map pyStrip).filter (fun r => r != "")).map
        (fun r => if endsWithSemi r then r else r ++ ";"))
    | _ => .error (.attributeError "split")

/-- Embedding of HTMLConverter._generate_css: one indented rule block
per style entry, followed by a blank separator line. -/
def generate_css : List (String × PyVal) → Except PyErr (List String)
  | [] => .ok []
  | (sel, rules) :: rest =>
    match format_css_rules rules with
    | .error e => .error e
    | .ok fr =>
      match generate_css rest with
      | .error e => .error e
      | .ok more =>
        .ok ((("    " ++ format_css_selector sel ++ " \x7b") ::
          fr.map (fun r => "      " ++ r)) ++ ["    \x7d", ""] ++ more)

/-- The element-name allow list of HTMLConverter._is_html_element. -/
def htmlElements : List String :=
  ["html", "head", "body", "title", "meta", "link", "style", "script",
   "div", "span", "p", "br", "hr",
   "h1", "h2", "h3", "h4", "h5", "h6",
   "ul", "ol", "li", "dl", "dt", "dd",
   "table", "thead", "tbody", "tr", "td", "th",
   "form", "input", "textarea", "select", "option", "button", "label",
   "a", "img", "video", "audio", "source",
   "header", "nav", "main", "section", "article", "aside", "footer",
   "figure", "figcaption", "details", "summary"]

/-- Embedding of HTMLConverter._is_html_element. -/
def is_html_element (name : String) : Bool :=
  htmlElements.contains (toLowerStr name)

/-- Embedding of HTMLConverter._format_attributes: each value is
interpolated with str() and wrapped in double quotes with no
escaping. -/
def format_attributes (attrs : List (String × PyVal)) : String :=
  if attrs.isEmpty then ""
  else " " ++ String.intercalate " "
    (attrs.map (fun p => p.1 ++ "=\"" ++ pyStr p.2 ++ "\""))

/-- Python "  " * n. -/
def indentStr (n : Nat) : String :=
  (List.replicate n "  ").foldl (fun a b => a ++ b) ""

/-- Python str.join over a list of values, which requires every item to
be a string. -/
def strItems : List PyVal → Except PyErr (List String)
  | [] => .ok []
  | .str s :: rest =>
    match strItems rest with
    | .ok ss => .ok (s :: ss)
    | .error e => .error e
  | _ :: _ => .error (.typeError "sequence item: expected str instance")

/-- Embedding of HTMLConverter._generate_meta_tags. -/
def generate_meta_tags (md : List (String × PyVal)) : Except PyErr (List String) :=
  let desc := dictGetD md "description" PyVal.none
  let author := dictGetD md "author" PyVal.none
  let keywords := dictGetD md "keywords" PyVal.none
  let title := dictGetD md "title" PyVal.none
  match (if pyFalsy desc then .ok []
    else (pyEscape desc).map
      (fun e => ["  <meta name=\"description\" content=\"" ++ e ++ "\">"])) with
  | .error e => .error e
  | .ok descTags =>
    match (if pyFalsy author then .ok []
      else (pyEscape author).map
        (fun e => ["  <meta name=\"author\" content=\"" ++ e ++ "\">"])) with
    | .error e => .error e
    | .ok authorTags =>
      match (if pyFalsy keywords then (.ok [] : Except PyErr (List String))
        else match keywords with
        | .list kl =>
          (strItems kl).map (fun ks =>
            ["  <meta name=\"keywords\" content=\"" ++
              escapeHtml (String.intercalate ", " ks) ++ "\">"])
        | kv =>
          (pyEscape kv).map
            (fun e => ["  <meta name=\"keywords\" content=\"" ++ e ++ "\">"])) with
      | .error e => .error e
      | .ok keywordTags =>
        match (if pyFalsy title then .ok []
          else (pyEscape title).map
            (fun e => ["  <meta property=\"og:title\" content=\"" ++ e ++ "\">"])) with
        | .error e => .error e
        | .ok ogTitle =>
          match (if pyFalsy desc then .ok []
            else (pyEscape desc).map
              (fun e => ["  <meta property=\"og:description\" content=\"" ++ e ++ "\">"])) with
          | .error e => .error e
          | .ok ogDesc =>
            .ok (descTags ++ authorTags ++ keywordTags ++ ogTitle ++ ogDesc ++
              ["  <meta property=\"og:type\" content=\"website\">"])

/-- The pieces contributed by one key/value entry of an element node
during _convert_element_to_html: an optional tag assignment, an
optional attribute assignment, and appended content strings. -/
structure EntryEffect where
  tag : Option String
  attr : Option (String × PyVal)
  content : List String

/-- Left fold of the entry effects, reproducing the loop state of
_convert_element_to_html: later tag assignments win, attribute
assignments go through dict item assignment, content accumulates in
order. -/
def apply_effects :
    (Option String × List (String × PyVal) × List String) → List EntryEffect →
      (Option String × List (String × PyVal) × List String)
  | acc, [] => acc
  | (tag, attrs, content), eff :: rest =>
    apply_effects
      ((match eff.tag with | some t => some t | Option.none => tag),
       (match eff.attr with | some (k, v) => setItem attrs k v | Option.none => attrs),
       content ++ eff.content) rest

/-- The void-element list of _convert_element_to_html. -/
def is_void_tag (tag : String) : Bool :=
  tag == "img" || tag == "br" || tag == "hr" || tag == "input" ||
    tag == "meta" || tag == "link"

/-- Tag resolution at the end of the _convert_element_to_html loop: a
tag set by the loop wins; otherwise the first key is used when it is a
recognised element name and the generic div container otherwise; an
empty mapping raises StopIteration from next on an exhausted
iterator. -/
def resolved_tag (el : List (String × PyVal)) :
    Option String → Except PyErr String
  | some t => .ok t
  | Option.none =>
    match el with
    | [] => .error .stopIteration
    | (k, _) :: _ => .ok (if is_html_element k then k else "div")

/-- Emission of an element once its tag is resolved: a void tag with no
content closes nothing, other empty elements emit an open/close pair,
one newline-free content item collapses to a single line, and anything
else is laid out multi-line with blank items dropped. -/
def emit_with_tag (ind : Nat) (tag : String) (attrs : List (String × PyVal))
    (content : List String) : String :=
  let attr_str := format_attributes attrs
  let istr := indentStr ind
  let multi := String.intercalate "\n"
    (((istr ++ "<" ++ tag ++ attr_str ++ ">") ::
      (content.filter (fun it => pyStrip it != "")).map
        (fun it => "  " ++ istr ++ it)) ++ [istr ++ "</" ++ tag ++ ">"])
  match content with
  | [] =>
    if is_void_tag tag then istr ++ "<" ++ tag ++ attr_str ++ ">"
    else istr ++ "<" ++ tag ++ attr_str ++ "></" ++ tag ++ ">"
  | [c] =>
    if containsSub c "\n" then multi
    else istr ++ "<" ++ tag ++ attr_str ++ ">" ++ c ++ "</" ++ tag ++ ">"
  | _ => multi

/-- Tail of _convert_element_to_html: resolve the tag, then emit the
element. -/
def emit_element (ind : Nat) (el : List (String × PyVal)) :
    Option String × List (String × PyVal) × List String → Except PyErr String
  | (tagOpt, attrs, content) =>
    match resolved_tag el tagOpt with
    | .error e => .error e
    | .ok tag => .ok (emit_with_tag ind tag attrs content)

/-- The style-key branch of _convert_element_to_html: a value naming an
existing style becomes a class attribute with the kebab-case class
name; an unhashable value raises TypeError from the membership test;
any other value is stored verbatim as an inline style attribute. -/
def style_effect (styles : List (String × PyVal)) (v : PyVal) :
    Except PyErr EntryEffect :=
  match v with
  | .str s =>
    if (styles.lookup s).isSome then
      .ok ⟨Option.none, some ("class", .str (lstrip_dots (format_css_selector s))), []⟩
    else .ok ⟨Option.none, some ("style", .str s), []⟩
  | .list _ => .error (.typeError "unhashable type: list")
  | .dict _ => .error (.typeError "unhashable type: dict")
  | w => .ok ⟨Option.none, some ("style", w), []⟩

mutual

/-- Embedding of HTMLConverter._convert_structure_to_html: dicts render
as elements, lists render itemwise joined by newlines, strings are
HTML-escaped, and any other value is stringified. -/
def convert_structure_to_html (styles : List (String × PyVal)) (ind : Nat)
    (v : PyVal) : Except PyErr String :=
  match v with
  | .dict el =>
    (match element_effects styles ind el with
     | .error e => .error e
     | .ok effs => emit_element ind el (apply_effects (Option.none, [], []) effs))
  | .list items =>
    (match convert_items styles ind items with
     | .ok cs => .ok (String.intercalate "\n" cs)
     | .error e => .error e)
  | .str s => .ok (escapeHtml s)
  | w => .ok (pyStr w)
termination_by structural v

/-- Itemwise structure conversion over a list of nodes. -/
def convert_items (styles : List (String × PyVal)) (ind : Nat)
    (items0 : List PyVal) : Except PyErr (List String) :=
  match items0 with
  | [] => .ok []
  | x :: xs =>
    match convert_structure_to_html styles ind x with
    | .error e => .error e
    | .ok c =>
      match convert_items styles ind xs with
      | .error e => .error e
      | .ok cs => .ok (c :: cs)
termination_by structural items0

/-- Entrywise effect collection over an element mapping, following the
branch order of the source loop: text and content keys contribute
escaped or stringified text; children recurse one indent deeper; the
style key resolves through style_effect; the listed flat attributes are
escaped and stored; a recognised element name sets the tag and renders
its value; any other key is ignored. -/
def element_effects (styles : List (String × PyVal)) (ind : Nat)
    (el : List (String × PyVal)) : Except PyErr (List EntryEffect) :=
  match el with
  | [] => .ok []
  | (k, v) :: rest =>
    match
      (if k = "text" ∨ k = "content" then
        match v with
        | .str s => .ok ⟨Option.none, Option.none, [escapeHtml s]⟩
        | w => .ok ⟨Option.none, Option.none, [pyStr w]⟩
      else if k = "children" then
        match v with
        | .list items =>
          (match convert_items styles (ind + 1) items with
           | .ok cs => .ok ⟨Option.none, Option.none, cs⟩
           | .error e => .error e)
        | .dict d =>
          (match element_effects styles (ind + 1) d with
           | .error e => .error e
           | .ok effs =>
             match emit_element (ind + 1) d (apply_effects (Option.none, [], []) effs) with
             | .ok c => .ok ⟨Option.none, Option.none, [c]⟩
             | .error e => .error e)
        | .str s => .ok ⟨Option.none, Option.none, [escapeHtml s]⟩
        | w => .ok ⟨Option.none, Option.none, [pyStr w]⟩
      else if k = "style" then style_effect styles v
      else if k = "class" ∨ k = "id" ∨ k = "src" ∨ k = "href" ∨ k = "alt" ∨ k = "title" then
        .ok ⟨Option.none, some (k, .str (escapeHtml (pyStr v))), []⟩
      else if is_html_element k then
        match v with
        | .dict d =>
          (match element_effects styles (ind + 1) d with
           | .error e => .error e
           | .ok effs =>
             match emit_element (ind + 1) d (apply_effects (Option.none, [], []) effs) with
             | .ok ch => .ok ⟨some k, Option.none, [ch]⟩
             | .error e => .error e)
        | w => .ok ⟨some k, Option.none, [escapeHtml (pyStr w)]⟩
      else (.ok ⟨Option.none, Option.none, []⟩ : Except PyErr EntryEffect)) with
    | .error e => .error e
    | .ok eff =>
      match element_effects styles ind rest with
      | .ok effs => .ok (eff :: effs)
      | .error e => .error e
termination_by structural el

end

/-- Embedding of HTMLConverter._convert_element_to_html: collect the
effect of each entry in order, fold them into the loop state, then
resolve the tag and emit (a named wrapper over the bodies inlined in
the mutual block above). -/
def convert_element_to_html (styles : List (String × PyVal)) (ind : Nat)
    (el : List (String × PyVal)) : Except PyErr String :=
  match element_effects styles ind el with
  | .error e => .error e
  | .ok effs => emit_element ind el (apply_effects (Option.none, [], []) effs)

theorem convert_structure_dict (styles : List (String × PyVal)) (ind : Nat)
    (el : List (String × PyVal)) :
    convert_structure_to_html styles ind (.dict el) =
      convert_element_to_html styles ind el := by
  cases h : element_effects styles ind el with
  | error e => simp [convert_structure_to_html, convert_element_to_html, h]
  | ok effs => simp [convert_structure_to_html, convert_element_to_html, h]

/-- Link lines for external stylesheets in _generate_head. -/
def stylesheetLinks : List PyVal → Except PyErr (List String)
  | [] => .ok []
  | u :: rest =>
    match pyEscape u with
    | .error e => .error e
    | .ok eu =>
      match stylesheetLinks rest with
      | .error e => .error e
      | .ok more => .ok (("  <link rel=\"stylesheet\" href=\"" ++ eu ++ "\">") :: more)

/-- Link lines for font imports in _generate_head (two preconnects plus
the stylesheet link per font). -/
def fontLinks : List PyVal → Except PyErr (List String)
  | [] => .ok []
  | u :: rest =>
    match pyEscape u with
    | .error e => .error e
    | .ok eu =>
      match fontLinks rest with
      | .error e => .error e
      | .ok more =>
        .ok ("  <link rel=\"preconnect\" href=\"https://fonts.googleapis.com\">" ::
          "  <link rel=\"preconnect\" href=\"https://fonts.gstatic.com\" crossorigin>" ::
          ("  <link rel=\"stylesheet\" href=\"" ++ eu ++ "\">") :: more)

/-- Embedding of HTMLConverter._generate_head with the converter's
default options (html5 doctype, responsive design, standard meta
tags). -/
def generate_head (md : List (String × PyVal)) (styles : List (String × PyVal))
    (importStyles importFonts : List PyVal) : Except PyErr String :=
  match generate_meta_tags md with
  | .error e => .error e
  | .ok metaTags =>
    match pyEscape (dictGetD md "title" (.str "Untitled")) with
    | .error e => .error e
    | .ok title =>
      match stylesheetLinks importStyles with
      | .error e => .error e
      | .ok styleLinks =>
        match fontLinks importFonts with
        | .error e => .error e
        | .ok fontLines =>
          match (if styles.isEmpty then (.ok [] : Except PyErr (List String))
            else match generate_css styles with
              | .error e => .error e
              | .ok css => .ok ("  <style>" :: css ++ ["  </style>"])) with
          | .error e => .error e
          | .ok styleBlock =>
            .ok (String.intercalate "\n"
              (["<head>", "  <meta charset=\"UTF-8\">",
                "  <meta name=\"viewport\" content=\"width=device-width, initial-scale=1.0\">"] ++
                metaTags ++ ["  <title>" ++ title ++ "</title>"] ++
                styleLinks ++ fontLines ++ styleBlock ++ ["</head>"]))

/-- Embedding of HTMLConverter._generate_body. -/
def generate_body (struct : PyVal) (styles : List (String × PyVal)) :
    Except PyErr String :=
  if pyFalsy struct then .ok "<body>\n</body>"
  else
    match convert_structure_to_html styles 1 struct with
    | .ok c => .ok ("<body>\n" ++ c ++ "\n</body>")
    | .error e => .error e

/-- Embedding of HTMLConverter._generate_document with the default
html5 doctype. -/
def generate_document (head body : String) : String :=
  "<!DOCTYPE html>\n<html lang=\"en\">\n" ++ head ++ "\n" ++ body ++ "\n</html>"

/-- Modelled from the spec: BaseConverter.extract_metadata and
extract_styles are in base_converter.py, which is not under src/; per
the spec (section 4.5 step 1) they extract the named section of the
resolved manifest, defaulting to an empty mapping. -/
def extract_section (m : List (String × PyVal)) (k : String) :
    Except PyErr (List (String × PyVal)) :=
  match m.lookup k with
  | Option.none => .ok []
  | some (.dict d) => .ok d
  | some _ => .error (.attributeError "get")

/-- Modelled from the spec: BaseConverter.extract_imports is in the
missing base_converter.py; per the spec (sections 3 and 6) the imports
mapping carries array-valued keys, each defaulting to an empty list. -/
def extract_import_list (m : List (String × PyVal)) (k : String) :
    Except PyErr (List PyVal) :=
  match m.lookup "imports" with
  | Option.none => .ok []
  | some (.dict im) =>
    (match im.lookup k with
     | some (.list l) => .ok l
     | some _ => .error (.typeError "imports values must be lists")
     | Option.none => .ok [])
  | some _ => .error (.attributeError "get")

/-- Embedding of HTMLConverter._format_header_comment (ts stands for
the run timestamp the source reads from a fresh ConversionResult). -/
def format_header_comment (title desc ts : String) : String :=
  let parts := ["Generated by WhyML - " ++ title] ++
    (if desc = "" then [] else ["Description: " ++ desc]) ++
    ["Generated on: " ++ ts]
  "<!--\n" ++ String.intercalate "\n" (parts.map (fun p => "  " ++ p)) ++ "\n-->"

/-- Modelled from the spec: BaseConverter.add_header_comment is in the
missing base_converter.py; it prepends the formatted header comment
built from the manifest title and description. -/
def add_header_comment (content : String) (m : List (String × PyVal))
    (ts : String) : Except PyErr String :=
  match extract_section m "metadata" with
  | .error e => .error e
  | .ok md =>
    let title := pyStr (dictGetD md "title" (.str "Untitled"))
    let desc := dictGetD md "description" PyVal.none
    .ok (format_header_comment title (if pyFalsy desc then "" else pyStr desc) ts ++
      "\n" ++ content)

/-- Modelled from the spec: BaseConverter.generate_filename is in the
missing base_converter.py; per the spec (section 4.5 step 5) the
default filename is derived from the manifest title, falling back to a
generic name. -/
def generate_filename (m : List (String × PyVal)) (given : Option String) : String :=
  match given with
  | some f => f
  | Option.none =>
    match m.lookup "metadata" with
    | some (.dict md) =>
      (match md.lookup "title" with
       | some (.str s) =>
         if s = "" then "index.html"
         else ((s.toList.map (fun c => if c = ' ' then '-' else c.toLower)).asString)
           ++ ".html"
       | _ => "index.html")
    | _ => "index.html"

mutual

/-- Modelled from the spec: the StructureWalker used by
HTMLConverter._count_elements lives in the missing base_converter.py;
per the spec (section 4.1) it traverses the tree depth first, and the
counting visitor adds one for each mapping node holding a recognised
element name among its keys. -/
def count_elements : PyVal → Nat
  | .dict l => (if l.any (fun p => is_html_element p.1) then 1 else 0) + count_entries l
  | .list xs => count_items xs
  | _ => 0

/-- Element count across list items. -/
def count_items : List PyVal → Nat
  | [] => 0
  | x :: xs => count_elements x + count_items xs

/-- Element count across dict entry values. -/
def count_entries : List (String × PyVal) → Nat
  | [] => 0
  | (_, v) :: xs => count_elements v + count_entries xs

end

/-- The immutable conversion result value (per-run metadata fields are
flattened into named fields). -/
structure ConversionResult where
  content : String
  filename : String
  format_type : String
  meta_title : PyVal
  has_styles : Bool
  has_imports : Bool
  element_count : Nat

/-- The try block of HTMLConverter.convert: extract the sections,
generate head and body, assemble the document and the header comment,
and package the ConversionResult (optimize_output is off by default, so
optimize_code is not applied). -/
def html_convert_inner (m : List (String × PyVal)) (ts : String)
    (given : Option String) : Except PyErr ConversionResult :=
  match extract_section m "metadata" with
  | .error e => .error e
  | .ok md =>
    match extract_section m "styles" with
    | .error e => .error e
    | .ok styles =>
      match extract_import_list m "styles" with
      | .error e => .error e
      | .ok importStyles =>
        match extract_import_list m "scripts" with
        | .error e => .error e
        | .ok importScripts =>
          match extract_import_list m "fonts" with
          | .error e => .error e
          | .ok importFonts =>
            match generate_head md styles importStyles importFonts with
            | .error e => .error e
            | .ok head =>
              match generate_body (dictGetD m "structure" (.dict [])) styles with
              | .error e => .error e
              | .ok body =>
                match add_header_comment (generate_document head body) m ts with
                | .error e => .error e
                | .ok content =>
                  .ok { content := content,
                        filename := generate_filename m given,
                        format_type := "html",
                        meta_title := dictGetD md "title" (.str "Untitled"),
                        has_styles := !styles.isEmpty,
                        has_imports := !(importStyles.isEmpty &&
                          importScripts.isEmpty && importFonts.isEmpty),
                        element_count := count_elements (dictGetD m "structure" (.dict [])) }

/-- Embedding of HTMLConverter.convert: the whole try block runs under
a blanket except clause that re-raises every exception through
handle_conversion_error.  (handle_conversion_error lives in the missing
base_converter.py; modelled from the spec, section 4.5, it translates
the exception into a ConversionError carrying the conversion
context.) -/
def html_convert (m : List (String × PyVal)) (ts : String)
    (given : Option String) : Except PyErr ConversionResult :=
  match html_convert_inner m ts given with
  | .ok r => .ok r
  | .error e => .error (.conversionError ("HTML conversion failed: " ++ pyErrMsg e))

/-- Valuewise style processing of StyleProcessor.process_styles: every
style value must be a string (a non-string raises from .strip). -/
def process_style_values : List (String × PyVal) → Except PyErr (List (String × PyVal))
  | [] => .ok []
  | (k, .str s) :: rest =>
    (match process_style_values rest with
     | .ok more => .ok ((k, PyVal.str (process_single_style s)) :: more)
     | .error e => .error e)
  | (_, _) :: _ => .error (.attributeError "strip")

/-- Embedding of StyleProcessor.process_styles at the manifest level: a
falsy styles section returns the manifest unchanged, otherwise each
style string is normalised and the styles entry replaced. -/
def process_styles_manifest (m : List (String × PyVal)) :
    Except PyErr (List (String × PyVal)) :=
  match m.lookup "styles" with
  | Option.none => .ok m
  | some sv =>
    if pyFalsy sv then .ok m
    else
      match sv with
      | .dict sl =>
        (match process_style_values sl with
         | .ok processed => .ok (setItem m "styles" (.dict processed))
         | .error e => .error e)
      | _ => .error (.attributeError "items")

/-- The scenario manifest of claim C5. -/
def c5Manifest : List (String × PyVal) :=
  [("metadata", PyVal.dict [("title", PyVal.str "T")]),
   ("styles", PyVal.dict [("box", PyVal.str "color: red")]),
   ("structure", PyVal.dict
     [("div", PyVal.dict [("text", PyVal.str "Hi"), ("style", PyVal.str "box")])])]

/-- The C5 pipeline: standard style processing followed by HTML
conversion (inheritance and variable substitution are no-ops for this
manifest: no extends, no context). -/
def c5Result : Except PyErr ConversionResult :=
  match process_styles_manifest c5Manifest with
  | .ok pm => html_convert pm "2024-01-01T00:00:00" Option.none
  | .error e => .error e

set_option maxRecDepth 100000 in
/-- Claim C5 as amended: the scenario manifest converts to a document
containing the title tag and the class-carrying div, and the CSS rule
for .box appears in expanded multi-line form (selector line, then the
declaration on its own line). -/
theorem html_scenario_content :
    ∃ r, c5Result = .ok r ∧
      containsSub r.content "<title>T</title>" = true ∧
      containsSub r.content "<div class=\"box\">Hi</div>" = true ∧
      containsSub r.content "    .box \x7b" = true ∧
      containsSub r.content "      color: red;" = true := by
  refine ⟨_, rfl, ?_, ?_, ?_, ?_⟩ <;> rfl

set_option maxRecDepth 100000 in
/-- Counterexample to claim C5 as stated: the generated document never
contains the single-line CSS rule text, because _generate_css emits the
selector, each declaration, and the closing brace on separate
lines. -/
theorem html_scenario_css_rule_not_single_line :
    ∃ r, c5Result = .ok r ∧
      containsSub r.content ".box \x7b color: red; \x7d" = false := by
  refine ⟨_, rfl, ?_⟩
  rfl

/-- Claim C3: every error escaping the try block of HTMLConverter.convert
is re-raised as a ConversionError; no other exception kind ever
propagates out of convert. -/
theorem html_convert_errors_are_conversion_errors (m : List (String × PyVal))
    (ts : String) (given : Option String) (e : PyErr)
    (h : html_convert m ts given = .error e) :
    ∃ msg, e = PyErr.conversionError msg := by
  unfold html_convert at h
  cases hi : html_convert_inner m ts given with
  | ok r => rw [hi] at h; cases h
  | error e2 =>
    rw [hi] at h
    injection h with h2
    exact ⟨_, h2.symm⟩

/-- The C3 scenario manifest: a list-shaped styles value reaching the
converter. -/
def c3Manifest : List (String × PyVal) :=
  [("metadata", PyVal.dict [("title", PyVal.str "T")]),
   ("styles", PyVal.dict
     [("external", PyVal.list [PyVal.str "a.css", PyVal.str "b.css"])]),
   ("structure", PyVal.dict [("div", PyVal.dict [("text", PyVal.str "x")])])]

/-- Witness for C3 at the scenario input: the list-shaped style value
raises AttributeError inside CSS generation, and convert surfaces it as
a ConversionError, not the raw type fault. -/
theorem html_convert_errors_are_conversion_errors_w :
    ∃ msg, PyErr.conversionError "HTML conversion failed: split" =
      PyErr.conversionError msg :=
  html_convert_errors_are_conversion_errors c3Manifest "2024-01-01T00:00:00"
    Option.none (PyErr.conversionError "HTML conversion failed: split") rfl

/-- Counterexample to claim C6 as stated: a br node erroneously given
text content is emitted with the content and an explicit closing tag,
not without children. -/
theorem void_br_with_text_emits_children :
    convert_element_to_html [] 1 [("br", PyVal.str "hi")] = .ok "  <br>hi</br>" ∧
      containsSub "  <br>hi</br>" "</br>" = true := ⟨rfl, rfl⟩

/-- Claim C6 as amended: a void-element node erroneously given text
content emits that content between an open tag and an explicit closing
tag — the content-free void emission only applies when no content was
collected, which a tag-defining key never allows. -/
theorem void_element_with_content_gets_closing_tag
    (styles : List (String × PyVal)) (t : String)
    (h : containsSub (escapeHtml t) "\n" = false) :
    convert_element_to_html styles 1 [("br", PyVal.str t)] =
      .ok ("  <br>" ++ escapeHtml t ++ "</br>") := by
  have hstep : convert_element_to_html styles 1 [("br", PyVal.str t)] =
      emit_element 1 [("br", PyVal.str t)] (some "br", [], [escapeHtml t]) := rfl
  rw [hstep]
  have hemit : emit_element 1 [("br", PyVal.str t)] (some "br", [], [escapeHtml t]) =
      .ok (emit_with_tag 1 "br" [] [escapeHtml t]) := rfl
  rw [hemit]
  congr 1
  unfold emit_with_tag
  simp only [h, Bool.false_eq_true, if_false]
  apply String.ext
  simp [String.append_assoc, indentStr, format_attributes]

/-- Witness for the amended C6 at a concrete input. -/
theorem void_element_with_content_gets_closing_tag_w :
    convert_element_to_html [] 1 [("br", PyVal.str "hi")] =
      .ok ("  <br>" ++ escapeHtml "hi" ++ "</br>") :=
  void_element_with_content_gets_closing_tag [] "hi" rfl

/-- Claim C8 as amended: a style value naming a key of the styles map
resolves to a class attribute holding the kebab-case class name derived
from the key (the formatted selector with its leading dots stripped);
any other string value is stored verbatim — unescaped — as an inline
style attribute. -/
theorem style_reference_resolution (styles : List (String × PyVal)) (s : String) :
    ((styles.lookup s).isSome = true →
      style_effect styles (PyVal.str s) =
        .ok ⟨Option.none,
          some ("class", PyVal.str (lstrip_dots (format_css_selector s))), []⟩) ∧
    ((styles.lookup s).isSome = false →
      style_effect styles (PyVal.str s) =
        .ok ⟨Option.none, some ("style", PyVal.str s), []⟩) := by
  constructor <;> intro h <;> simp [style_effect, h]

/-- Witness for the amended C8: a matching style name becomes a class
attribute and an unmatched raw declaration stays an inline style. -/
theorem style_reference_resolution_w :
    style_effect [("box", PyVal.str "color: red;")] (PyVal.str "box") =
      .ok ⟨Option.none, some ("class", PyVal.str "box"), []⟩ ∧
    style_effect [] (PyVal.str "color: blue") =
      .ok ⟨Option.none, some ("style", PyVal.str "color: blue"), []⟩ := by
  constructor
  · exact ((style_reference_resolution [("box", PyVal.str "color: red;")] "box").1
      rfl).trans rfl
  · exact (style_reference_resolution [] "color: blue").2 rfl

/-- Counterexample to claim C8 as stated: an inline style value
containing a double quote is emitted into the attribute verbatim, with
no HTML-attribute escaping (escape would have produced the quot
entity). -/
theorem inline_style_value_not_escaped :
    convert_element_to_html [] 1
      [("text", PyVal.str "x"), ("style", PyVal.str "color: \"q\"")] =
      .ok "  <div style=\"color: \"q\"\">x</div>" ∧
    escapeHtml "color: \"q\"" ≠ "color: \"q\"" := by
  exact ⟨rfl, by decide⟩

/-! ## Claim C7: totality of rendering and the div default -/

mutual

/-- Renderability of a structure value: every mapping node reached by
the converter walk is non-empty and every style value is hashable (not
a list or a dict); scalar values are always renderable.  These are the
failure sources of the converter walk (StopIteration from next on an
empty mapping, TypeError from the unhashable membership test). -/
def renderable (v : PyVal) : Bool :=
  match v with
  | .dict el => !el.isEmpty && renderableEntries el
  | .list items => renderableItems items
  | _ => true
termination_by structural v

/-- Itemwise renderability of a list node. -/
def renderableItems (items : List PyVal) : Bool :=
  match items with
  | [] => true
  | x :: xs => renderable x && renderableItems xs
termination_by structural items

/-- Entrywise renderability of a mapping node, mirroring the branch
order of element_effects. -/
def renderableEntries (el : List (String × PyVal)) : Bool :=
  match el with
  | [] => true
  | (k, v) :: rest =>
    (if k = "text" ∨ k = "content" then true
     else if k = "children" then renderable v
     else if k = "style" then
       (match v with | .list _ => false | .dict _ => false | _ => true)
     else if k = "class" ∨ k = "id" ∨ k = "src" ∨ k = "href" ∨ k = "alt" ∨ k = "title" then
       true
     else if is_html_element k then
       (match v with | .dict _ => renderable v | _ => true)
     else true) && renderableEntries rest
termination_by structural el

end

/-- Emission never fails on a non-empty mapping: whatever loop state the
effects produced, tag resolution succeeds (either a tag was set, or the
first key supplies one, defaulting to div). -/
theorem emit_element_cons_ok (ind : Nat) (k : String) (v : PyVal)
    (rest : List (String × PyVal))
    (p : Option String × List (String × PyVal) × List String) :
    ∃ s, emit_element ind ((k, v) :: rest) p = .ok s := by
  obtain ⟨tagOpt, attrs, content⟩ := p
  cases tagOpt with
  | none => exact ⟨_, rfl⟩
  | some t => exact ⟨_, rfl⟩

/-- Propagation of the no-tag property through a cons cell of the
effect list. -/
theorem tags_cons {k : String} {v : PyVal} {el : List (String × PyVal)}
    {eff0 : EntryEffect} {effs : List EntryEffect}
    (h0 : eff0.tag = Option.none)
    (ht : (∀ kv ∈ el, is_html_element kv.1 = false) →
      ∀ eff ∈ effs, eff.tag = Option.none) :
    (∀ kv ∈ (k, v) :: el, is_html_element kv.1 = false) →
      ∀ eff ∈ eff0 :: effs, eff.tag = Option.none := by
  intro hk eff hm
  rcases List.mem_cons.mp hm with rfl | hm2
  · exact h0
  · exact ht (fun kv hkv => hk kv (List.mem_cons_of_mem _ hkv)) eff hm2

/-- The style branch never fails on a string value, and never sets a
tag. -/
theorem style_effect_str_ok (styles : List (String × PyVal)) (s : String) :
    ∃ eff, style_effect styles (PyVal.str s) = .ok eff ∧
      eff.tag = Option.none := by
  have hred : style_effect styles (PyVal.str s) =
      if (styles.lookup s).isSome then
        Except.ok ⟨Option.none,
          some ("class", PyVal.str (lstrip_dots (format_css_selector s))), []⟩
      else Except.ok ⟨Option.none, some ("style", PyVal.str s), []⟩ := by
    simp only [style_effect]
  rw [hred]
  by_cases hl : (styles.lookup s).isSome = true
  · rw [if_pos hl]
    exact ⟨_, rfl, rfl⟩
  · rw [if_neg hl]
    exact ⟨_, rfl, rfl⟩

/-- On a renderable entry list, effect collection succeeds; and if no
key is a recognised element name, none of the collected effects sets a
tag. -/
theorem element_effects_ok (styles : List (String × PyVal)) :
    ∀ el : List (String × PyVal),
      (∀ p ∈ el, ∀ i2 : Nat, renderable p.2 = true →
        ∃ s, convert_structure_to_html styles i2 p.2 = .ok s) →
      renderableEntries el = true →
      ∀ ind : Nat,
      ∃ effs, element_effects styles ind el = .ok effs ∧
        ((∀ kv ∈ el, is_html_element kv.1 = false) →
          ∀ eff ∈ effs, eff.tag = Option.none) := by
  intro el
  induction el with
  | nil =>
    intro _ _ ind
    exact ⟨[], rfl, fun _ _ h => absurd h (List.not_mem_nil _)⟩
  | cons hd rest ih =>
    obtain ⟨k, v⟩ := hd
    intro hmem hren ind
    have hv := hmem (k, v) (List.mem_cons_self _ _)
    cases v with
    | str s =>
      simp only [renderableEntries, Bool.and_eq_true] at hren
      obtain ⟨hhead, hrest⟩ := hren
      obtain ⟨effs, heffs, htags⟩ :=
        ih (fun p hp => hmem p (List.mem_cons_of_mem _ hp)) hrest ind
      simp only [element_effects, heffs]
      by_cases htc : k = "text" ∨ k = "content"
      · rw [if_pos htc]
        exact ⟨_, rfl, tags_cons rfl htags⟩
      · rw [if_neg htc]
        by_cases hch : k = "children"
        · rw [if_pos hch]
          exact ⟨_, rfl, tags_cons rfl htags⟩
        · rw [if_neg hch]
          by_cases hst : k = "style"
          · rw [if_pos hst]
            obtain ⟨eff0, he0, ht0⟩ := style_effect_str_ok styles s
            simp only [he0]
            exact ⟨_, rfl, tags_cons ht0 htags⟩
          · rw [if_neg hst]
            by_cases hfa : k = "class" ∨ k = "id" ∨ k = "src" ∨ k = "href" ∨
                k = "alt" ∨ k = "title"
            · rw [if_pos hfa]
              exact ⟨_, rfl, tags_cons rfl htags⟩
            · rw [if_neg hfa]
              by_cases hhtml : is_html_element k = true
              · rw [if_pos hhtml]
                exact ⟨_, rfl, fun hk => absurd ((hk (k, PyVal.str s)
                  (List.mem_cons_self _ _)).symm.trans hhtml) (by decide)⟩
              · rw [if_neg hhtml]
                exact ⟨_, rfl, tags_cons rfl htags⟩
    | int n =>
      simp only [renderableEntries, Bool.and_eq_true] at hren
      obtain ⟨hhead, hrest⟩ := hren
      obtain ⟨effs, heffs, htags⟩ :=
        ih (fun p hp => hmem p (List.mem_cons_of_mem _ hp)) hrest ind
      simp only [element_effects, heffs]
      by_cases htc : k = "text" ∨ k = "content"
      · rw [if_pos htc]
        exact ⟨_, rfl, tags_cons rfl htags⟩
      · rw [if_neg htc]
        by_cases hch : k = "children"
        · rw [if_pos hch]
          exact ⟨_, rfl, tags_cons rfl htags⟩
        · rw [if_neg hch]
          by_cases hst : k = "style"
          · rw [if_pos hst]
            exact ⟨_, rfl, tags_cons rfl htags⟩
          · rw [if_neg hst]
            by_cases hfa : k = "class" ∨ k = "id" ∨ k = "src" ∨ k = "href" ∨
                k = "alt" ∨ k = "title"
            · rw [if_pos hfa]
              exact ⟨_, rfl, tags_cons rfl htags⟩
            · rw [if_neg hfa]
              by_cases hhtml : is_html_element k = true
              · rw [if_pos hhtml]
                exact ⟨_, rfl, fun hk => absurd ((hk (k, PyVal.int n)
                  (List.mem_cons_self _ _)).symm.trans hhtml) (by decide)⟩
              · rw [if_neg hhtml]
                exact ⟨_, rfl, tags_cons rfl htags⟩
    | bool b =>
      simp only [renderableEntries, Bool.and_eq_true] at hren
      obtain ⟨hhead, hrest⟩ := hren
      obtain ⟨effs, heffs, htags⟩ :=
        ih (fun p hp => hmem p (List.mem_cons_of_mem _ hp)) hrest ind
      simp only [element_effects, heffs]
      by_cases htc : k = "text" ∨ k = "content"
      · rw [if_pos htc]
        exact ⟨_, rfl, tags_cons rfl htags⟩
      · rw [if_neg htc]
        by_cases hch : k = "children"
        · rw [if_pos hch]
          exact ⟨_, rfl, tags_cons rfl htags⟩
        · rw [if_neg hch]
          by_cases hst : k = "style"
          · rw [if_pos hst]
            exact ⟨_, rfl, tags_cons rfl htags⟩
          · rw [if_neg hst]
            by_cases hfa : k = "class" ∨ k = "id" ∨ k = "src" ∨ k = "href" ∨
                k = "alt" ∨ k = "title"
            · rw [if_pos hfa]
              exact ⟨_, rfl, tags_cons rfl htags⟩
            · rw [if_neg hfa]
              by_cases hhtml : is_html_element k = true
              · rw [if_pos hhtml]
                exact ⟨_, rfl, fun hk => absurd ((hk (k, PyVal.bool b)
                  (List.mem_cons_self _ _)).symm.trans hhtml) (by decide)⟩
              · rw [if_neg hhtml]
                exact ⟨_, rfl, tags_cons rfl htags⟩
    | none =>
      simp only [renderableEntries, Bool.and_eq_true] at hren
      obtain ⟨hhead, hrest⟩ := hren
      obtain ⟨effs, heffs, htags⟩ :=
        ih (fun p hp => hmem p (List.mem_cons_of_mem _ hp)) hrest ind
      simp only [element_effects, heffs]
      by_cases htc : k = "text" ∨ k = "content"
      · rw [if_pos htc]
        exact ⟨_, rfl, tags_cons rfl htags⟩
      · rw [if_neg htc]
        by_cases hch : k = "children"
        · rw [if_pos hch]
          exact ⟨_, rfl, tags_cons rfl htags⟩
        · rw [if_neg hch]
          by_cases hst : k = "style"
          · rw [if_pos hst]
            exact ⟨_, rfl, tags_cons rfl htags⟩
          · rw [if_neg hst]
            by_cases hfa : k = "class" ∨ k = "id" ∨ k = "src" ∨ k = "href" ∨
                k = "alt" ∨ k = "title"
            · rw [if_pos hfa]
              exact ⟨_, rfl, tags_cons rfl htags⟩
            · rw [if_neg hfa]
              by_cases hhtml : is_html_element k = true
              · rw [if_pos hhtml]
                exact ⟨_, rfl, fun hk => absurd ((hk (k, PyVal.none)
                  (List.mem_cons_self _ _)).symm.trans hhtml) (by decide)⟩
              · rw [if_neg hhtml]
                exact ⟨_, rfl, tags_cons rfl htags⟩
    | list items =>
      simp only [renderableEntries, Bool.and_eq_true] at hren
      obtain ⟨hhead, hrest⟩ := hren
      obtain ⟨effs, heffs, htags⟩ :=
        ih (fun p hp => hmem p (List.mem_cons_of_mem _ hp)) hrest ind
      simp only [element_effects, heffs]
      by_cases htc : k = "text" ∨ k = "content"
      · rw [if_pos htc]
        exact ⟨_, rfl, tags_cons rfl htags⟩
      · rw [if_neg htc] at hhead ⊢
        by_cases hch : k = "children"
        · rw [if_pos hch] at hhead ⊢
          obtain ⟨s, hs⟩ := hv (ind + 1) hhead
          cases hci : convert_items styles (ind + 1) items with
          | error e => simp [convert_structure_to_html, hci] at hs
          | ok cs =>
            simp only [hci]
            exact ⟨_, rfl, tags_cons rfl htags⟩
        · rw [if_neg hch] at hhead ⊢
          by_cases hst : k = "style"
          · rw [if_pos hst] at hhead
            exact absurd hhead (by decide)
          · rw [if_neg hst] at hhead ⊢
            by_cases hfa : k = "class" ∨ k = "id" ∨ k = "src" ∨ k = "href" ∨
                k = "alt" ∨ k = "title"
            · rw [if_pos hfa]
              exact ⟨_, rfl, tags_cons rfl htags⟩
            · rw [if_neg hfa]
              by_cases hhtml : is_html_element k = true
              · rw [if_pos hhtml]
                exact ⟨_, rfl, fun hk => absurd ((hk (k, PyVal.list items)
                  (List.mem_cons_self _ _)).symm.trans hhtml) (by decide)⟩
              · rw [if_neg hhtml]
                exact ⟨_, rfl, tags_cons rfl htags⟩
    | dict d =>
      simp only [renderableEntries, Bool.and_eq_true] at hren
      obtain ⟨hhead, hrest⟩ := hren
      obtain ⟨effs, heffs, htags⟩ :=
        ih (fun p hp => hmem p (List.mem_cons_of_mem _ hp)) hrest ind
      simp only [element_effects, heffs]
      by_cases htc : k = "text" ∨ k = "content"
      · rw [if_pos htc]
        exact ⟨_, rfl, tags_cons rfl htags⟩
      · rw [if_neg htc] at hhead ⊢
        by_cases hch : k = "children"
        · rw [if_pos hch] at hhead ⊢
          obtain ⟨s, hs⟩ := hv (ind + 1) hhead
          cases hee : element_effects styles (ind + 1) d with
          | error e => simp [convert_structure_to_html, hee] at hs
          | ok effs2 =>
            simp only [convert_structure_to_html, hee] at hs
            simp only [hee, hs]
            exact ⟨_, rfl, tags_cons rfl htags⟩
        · rw [if_neg hch] at hhead ⊢
          by_cases hst : k = "style"
          · rw [if_pos hst] at hhead
            exact absurd hhead (by decide)
          · rw [if_neg hst] at hhead ⊢
            by_cases hfa : k = "class" ∨ k = "id" ∨ k = "src" ∨ k = "href" ∨
                k = "alt" ∨ k = "title"
            · rw [if_pos hfa]
              exact ⟨_, rfl, tags_cons rfl htags⟩
            · rw [if_neg hfa] at hhead ⊢
              by_cases hhtml : is_html_element k = true
              · rw [if_pos hhtml] at hhead ⊢
                obtain ⟨s, hs⟩ := hv (ind + 1) hhead
                cases hee : element_effects styles (ind + 1) d with
                | error e => simp [convert_structure_to_html, hee] at hs
                | ok effs2 =>
                  simp only [convert_structure_to_html, hee] at hs
                  simp only [hee, hs]
                  exact ⟨_, rfl, fun hk => absurd ((hk (k, PyVal.dict d)
                    (List.mem_cons_self _ _)).symm.trans hhtml) (by decide)⟩
              · rw [if_neg hhtml]
                exact ⟨_, rfl, tags_cons rfl htags⟩

/-- On a renderable item list, itemwise conversion succeeds. -/
theorem convert_items_ok (styles : List (String × PyVal)) (ind : Nat) :
    ∀ items : List PyVal,
      (∀ x ∈ items, ∀ i2 : Nat, renderable x = true →
        ∃ s, convert_structure_to_html styles i2 x = .ok s) →
      renderableItems items = true →
      ∃ cs, convert_items styles ind items = .ok cs := by
  intro items
  induction items with
  | nil => exact fun _ _ => ⟨[], rfl⟩
  | cons x xs ih =>
    intro hmem hren
    simp only [renderableItems, Bool.and_eq_true] at hren
    obtain ⟨s, hs⟩ := hmem x (List.mem_cons_self _ _) ind hren.1
    obtain ⟨cs, hcs⟩ := ih (fun y hy => hmem y (List.mem_cons_of_mem _ hy)) hren.2
    exact ⟨s :: cs, by simp only [convert_items, hs, hcs]⟩

/-- Totality of structure conversion on renderable values. -/
theorem convert_structure_total (v : PyVal) :
    ∀ (styles : List (String × PyVal)) (ind : Nat), renderable v = true →
      ∃ s, convert_structure_to_html styles ind v = .ok s := by
  induction v using PyVal.inductionOn with
  | hstr s => exact fun styles ind _ => ⟨_, rfl⟩
  | hint n => exact fun styles ind _ => ⟨_, rfl⟩
  | hbool b => exact fun styles ind _ => ⟨_, rfl⟩
  | hnone => exact fun styles ind _ => ⟨_, rfl⟩
  | hlist l ihm =>
    intro styles ind hr
    have hri : renderableItems l = true := by simpa [renderable] using hr
    obtain ⟨cs, hcs⟩ := convert_items_ok styles ind l
      (fun x hx i2 => ihm x hx styles i2) hri
    exact ⟨String.intercalate "\n" cs, by simp only [convert_structure_to_html, hcs]⟩
  | hdict l ihm =>
    intro styles ind hr
    simp only [renderable, Bool.and_eq_true] at hr
    obtain ⟨hne, hent⟩ := hr
    obtain ⟨effs, heffs, _⟩ := element_effects_ok styles l
      (fun p hp i2 => ihm p hp styles i2) hent ind
    cases l with
    | nil => simp at hne
    | cons hd tl =>
      obtain ⟨k, v2⟩ := hd
      obtain ⟨s, hs⟩ :=
        emit_element_cons_ok ind k v2 tl (apply_effects (Option.none, [], []) effs)
      exact ⟨s, by simp only [convert_structure_to_html, heffs, hs]⟩

/-- The loop state keeps a None tag when no effect sets one. -/
theorem apply_effects_tag_none :
    ∀ (effs : List EntryEffect) (attrs : List (String × PyVal))
      (content : List String),
      (∀ eff ∈ effs, eff.tag = Option.none) →
      (apply_effects (Option.none, attrs, content) effs).1 = Option.none := by
  intro effs
  induction effs with
  | nil => intro attrs content _; rfl
  | cons eff rest ih =>
    intro attrs content h
    have h0 : eff.tag = Option.none := h eff (List.mem_cons_self _ _)
    simp only [apply_effects, h0]
    exact ih _ _ (fun e he => h e (List.mem_cons_of_mem _ he))

set_option maxRecDepth 100000 in
/-- Counterexample to claim C7 as stated: rendering is not total.  An
empty mapping node makes next raise StopIteration during tag
resolution, and at the converter boundary the error surfaces as a
ConversionError — the node is rejected rather than rendered as a
default div. -/
theorem empty_node_stopiteration :
    convert_element_to_html [] 1 [] = .error PyErr.stopIteration ∧
    html_convert
      [("metadata", PyVal.dict [("title", PyVal.str "T")]),
       ("structure", PyVal.dict [("div", PyVal.dict [("children", PyVal.dict [])])])]
      "TS" Option.none =
      .error (PyErr.conversionError "HTML conversion failed: StopIteration") := by
  exact ⟨rfl, rfl⟩

/-- Claim C7 as amended: on renderable structure values (every mapping
node non-empty, every style value hashable) rendering is total — the
converter walk always succeeds; and a non-empty mapping node none of
whose keys is a recognised HTML element name is emitted with the
default generic container tag div.  Unconditional totality fails on the
empty mapping node. -/
theorem renderable_total_div_default (styles : List (String × PyVal))
    (ind : Nat) (v : PyVal) (el : List (String × PyVal)) :
    (renderable v = true → ∃ s, convert_structure_to_html styles ind v = .ok s) ∧
    (renderable (PyVal.dict el) = true →
      el.all (fun kv => !is_html_element kv.1) = true →
      ∃ attrs content, convert_element_to_html styles ind el =
        .ok (emit_with_tag ind "div" attrs content)) := by
  constructor
  · exact fun h => convert_structure_total v styles ind h
  · intro hr hall
    simp only [renderable, Bool.and_eq_true] at hr
    obtain ⟨hne, hent⟩ := hr
    have hallP : ∀ kv ∈ el, is_html_element kv.1 = false := by
      intro kv hkv
      have hb := List.all_eq_true.mp hall kv hkv
      simpa using hb
    obtain ⟨effs, heffs, htags⟩ := element_effects_ok styles el
      (fun p _ i2 h => convert_structure_total p.2 styles i2 h) hent ind
    rcases hap : apply_effects (Option.none, [], []) effs with ⟨t, attrs, content⟩
    have htag0 := apply_effects_tag_none effs [] [] (htags hallP)
    rw [hap] at htag0
    have ht : t = Option.none := htag0
    subst ht
    cases el with
    | nil => simp at hne
    | cons hd tl =>
      obtain ⟨k, v2⟩ := hd
      have hk : is_html_element k = false := hallP (k, v2) (List.mem_cons_self _ _)
      refine ⟨attrs, content, ?_⟩
      simp only [convert_element_to_html, heffs, hap]
      simp [emit_element, resolved_tag, hk]

/-- Witness for the amended C7 at a concrete node whose only key, foo,
is not a recognised element name: conversion succeeds and the tag
defaults to div. -/
theorem renderable_total_div_default_w :
    (∃ s, convert_structure_to_html [] 1
      (PyVal.dict [("foo", PyVal.str "hi")]) = .ok s) ∧
    (∃ attrs content, convert_element_to_html [] 1 [("foo", PyVal.str "hi")] =
      .ok (emit_with_tag 1 "div" attrs content)) :=
  ⟨(renderable_total_div_default [] 1 (PyVal.dict [("foo", PyVal.str "hi")])
      [("foo", PyVal.str "hi")]).1 (by rfl),
   (renderable_total_div_default [] 1 (PyVal.dict [("foo", PyVal.str "hi")])
      [("foo", PyVal.str "hi")]).2 (by rfl) (by rfl)⟩
